import Mathlib

/-!
Verification of the wallet-analysis and staking-recommendation engine.

This file gives a shallow embedding, in Lean 4, of the core logic of the
repository's wallet analyzer (the `WalletAnalyzer`, `InternalTokenBalanceProvider`
and `Cache` classes): the TTL cache, the chain registry, the per-chain balance
aggregation with its dust filtering and chain-contribution rule, the portfolio
scoring pipeline (token analysis, diversification score, risk profile, liquidity
profile), the staking-strategy selection and the recommendation generator.

Modelling conventions:
* JavaScript numbers (all produced here by `parseFloat` of decimal balance
  strings and by elementary arithmetic) are modelled as `ℚ`; `toFixed(6)`
  is modelled as rounding to the nearest multiple of `10⁻⁶`.
* `Date.now()` timestamps are explicit `ℤ` arguments.
* Network queries are modelled by an environment (`Env`): per chain either a
  failure or a raw result giving the native balance (absent when that single
  query failed, which the code turns into `0`) and a per-token-address balance
  (absent when that token query failed, which the code skips).
* JavaScript `Map` / plain-object stores are modelled as functions
  `String → Option _` (for the cache) and insertion-ordered association lists
  (for `Record<string, string>` values).
* Purely presentational string fields (names, descriptions, reasoning text,
  log messages) are not modelled; every branching condition and every numeric
  field of the source is.
-/

/-- Staking mechanism type (`StakingOption.type`; the static catalogs also use
`YIELD_FARMING`). -/
inductive StakeType where
  | LIQUID
  | LOCKED
  | RESTAKING
  | YIELD_FARMING
deriving DecidableEq, Repr

/-- Risk level of a staking option (`riskLevel`). -/
inductive RiskLevel where
  | LOW
  | MEDIUM
  | HIGH
deriving DecidableEq, Repr

/-- Qualitative risk tolerance tier. -/
inductive RiskTolerance where
  | CONSERVATIVE
  | MODERATE
  | AGGRESSIVE
  | DEGENERATE
  | UNKNOWN
deriving DecidableEq, Repr

/-- Priority of a staking recommendation. -/
inductive Priority where
  | HIGH
  | MEDIUM
  | LOW
deriving DecidableEq, Repr

/-- `StakingOption` record. `minAmount` is stored as a decimal string in the
source and always consumed through `parseFloat`; it is modelled directly as
`ℚ`. The presentational `description` field is omitted. -/
structure StakingOption where
  protocol : String
  type : StakeType
  expectedApr : ℚ
  minAmount : ℚ
  lockPeriod : Option ℕ := none
  riskLevel : RiskLevel
  chainName : String
deriving DecidableEq, Repr

/-- `TokenHolding` record. `balance` is the human-readable decimal balance
(`formatUnits` output), modelled as `ℚ`. The presentational `name` field and
the always-unset `usdValue`/`percentage` fields are omitted. -/
structure TokenHolding where
  symbol : String
  address : String
  balance : ℚ
  decimals : ℕ
  chainName : String
  isStakeable : Bool
  stakingOptions : List StakingOption
  isTestnet : Bool
deriving DecidableEq, Repr

/-- `TokenBalanceData`: one chain's balance snapshot. `totalUsdValue` is a
constant `0` in the source and omitted. -/
structure TokenBalanceData where
  address : String
  chainName : String
  nativeBalance : ℚ
  tokenHoldings : List TokenHolding
  isTestnet : Bool
deriving DecidableEq, Repr

/-- `StakingRecommendation` record; `recommendedAmount` and `expectedReturn`
are produced through `toFixed(6)` in the source, modelled by `toFixed6`.
The `reasoning` / `riskAssessment` strings are omitted. -/
structure StakingRecommendation where
  recommendedAmount : ℚ
  token : String
  options : List StakingOption
  expectedReturn : ℚ
  priority : Priority
  isTestnet : Bool
deriving DecidableEq, Repr

/-- `StakingStrategy` record. -/
structure StakingStrategy where
  recommendedAllocation : ℚ
  preferredProtocols : List String
  riskTolerance : RiskTolerance
  liquidityBuffer : ℚ
  stakingHorizon : ℕ
  diversificationGoal : ℕ
deriving DecidableEq, Repr

/-- Diversification level of the token analysis. -/
inductive DivLevel where
  | LOW
  | MEDIUM
  | HIGH
deriving DecidableEq, Repr

/-- `TokenAnalysis` record. -/
structure TokenAnalysis where
  totalTokens : ℕ
  majorHoldings : List TokenHolding
  stablecoins : List TokenHolding
  defiTokens : List TokenHolding
  governanceTokens : List TokenHolding
  stakeableAssets : List TokenHolding
  concentrationRisk : ℚ
  diversificationLevel : DivLevel
deriving DecidableEq, Repr

/-- `WalletRiskProfile` record. -/
structure WalletRiskProfile where
  riskScore : ℚ
  riskTolerance : RiskTolerance
  maxSinglePosition : ℚ
  diversificationLevel : DivLevel
  lockPeriodTolerance : ℕ
  concentrationRisk : ℚ
  liquidityRisk : ℚ
  stakingRiskTolerance : RiskLevel
deriving DecidableEq, Repr

/-- `LiquidityProfile` record. -/
structure LiquidityProfile where
  liquidityRatio : ℚ
  withdrawalFrequency : ℕ
  emergencyBuffer : ℚ
  preferredLockPeriods : List ℕ
  liquidAssets : List TokenHolding
  stakedAssets : List TokenHolding
  stakingCapacity : ℚ
deriving DecidableEq, Repr

/-- `BehaviorPattern` record (presentational strings omitted). -/
structure BehaviorPattern where
  pattern : String
  frequency : ℕ
  confidence : ℚ
deriving DecidableEq, Repr

/-- `WalletAnalysis` aggregate. `transactionCount` and `totalUsdValue` are the
constants `0`; `portfolioValue` equals `totalBalance`; the static
`evmCapabilities` record and the `preferredAssets` listing (pure presentation
over the same holdings) are omitted. -/
structure WalletAnalysis where
  address : String
  totalBalance : ℚ
  tokenHoldings : List TokenHolding
  nativeBalances : List (String × ℚ)
  diversificationScore : ℚ
  stakingRecommendations : List StakingRecommendation
  currentStakingPositions : List TokenHolding
  tokenAnalysis : TokenAnalysis
  riskProfile : WalletRiskProfile
  stakingStrategy : StakingStrategy
  behaviorPatterns : List BehaviorPattern
  liquidityNeeds : LiquidityProfile
deriving DecidableEq, Repr

/-- `Number.prototype.toFixed(6)`: rounding to the nearest multiple of
`10⁻⁶` (all amounts in scope are non-negative, so round-half-up agrees with
JavaScript's round-half-away-from-zero). -/
def toFixed6 (q : ℚ) : ℚ := (round (q * 1000000) : ℤ) / 1000000

/-- A cache entry: `{ data, timestamp }`. -/
structure CacheEntry (T : Type) where
  data : T
  timestamp : ℤ

/-- The TTL `Cache` class: a string-keyed map plus a TTL in milliseconds. -/
structure Cache (T : Type) where
  ttl : ℤ
  store : String → Option (CacheEntry T)

/-- `Cache.get(key)` at time `now`: absent keys return `null`; an entry whose
age strictly exceeds the TTL is deleted and `null` returned; otherwise the
stored data is returned and the map is untouched. Returns the result together
with the updated cache. -/
def Cache.get (c : Cache T) (key : String) (now : ℤ) : Option T × Cache T :=
  match c.store key with
  | none => (none, c)
  | some item =>
    if now - item.timestamp > c.ttl then
      (none, { c with store := fun k => if k = key then none else c.store k })
    else
      (some item.data, c)

/-- `Cache.set(key, data)` at time `now`. -/
def Cache.set (c : Cache T) (key : String) (data : T) (now : ℤ) : Cache T :=
  { c with store := fun k => if k = key then some ⟨data, now⟩ else c.store k }

/-- `CHAIN_CONFIG`, reduced to the fields the logic consumes: the registry's
key order and each chain's `isTestnet` flag (ids, RPC URLs and currency
metadata never influence control flow in the analysis pipeline). Order is the
object-literal insertion order. -/
def CHAIN_CONFIG : List (String × Bool) :=
  [("mainnet", false), ("base", false), ("arbitrum", false), ("polygon", false),
   ("sepolia", true), ("holesky", true), ("baseSepolia", true),
   ("arbitrumSepolia", true), ("polygonAmoy", true), ("optimismSepolia", true)]

/-- `InternalTokenBalanceProvider.isTestnetChain`: `CHAIN_CONFIG[chain]?.isTestnet || false`. -/
def isTestnetChain (chainName : String) : Bool :=
  ((CHAIN_CONFIG.lookup chainName).getD false)

/-- `InternalTokenBalanceProvider.getTestnetChains`. -/
def getTestnetChains : List String :=
  (CHAIN_CONFIG.filter (fun p => p.2)).map (fun p => p.1)

/-- `InternalTokenBalanceProvider.getMainnetChains`. -/
def getMainnetChains : List String :=
  (CHAIN_CONFIG.filter (fun p => !p.2)).map (fun p => p.1)

/-- Catalog token entry (token database element): contract address, symbol,
decimals, stakeability, staking options and the optional `isTestnet` flag
(absent on mainnet entries, i.e. `false`). -/
structure TokenConfig where
  address : String
  symbol : String
  decimals : ℕ
  isStakeable : Bool
  stakingOptions : List StakingOption := []
  isTestnet : Bool := false
deriving DecidableEq, Repr

/-- `TESTNET_TOKEN_DATABASE`, keyed by chain name (unknown chains yield `[]`). -/
def TESTNET_TOKEN_DATABASE (chainName : String) : List TokenConfig :=
  if chainName = "sepolia" then
    [{ address := "0x1f9840a85d5af5bf1d1762f925bdaddc4201f984", symbol := "UNI",
       decimals := 18, isStakeable := true, isTestnet := true,
       stakingOptions := [
         { protocol := "Testnet Uniswap", type := .YIELD_FARMING, expectedApr := 8,
           minAmount := 1, riskLevel := .MEDIUM, chainName := "sepolia" }] },
     { address := "0x779877A7B0D9E8603169DdbD7836e478b4624789", symbol := "LINK",
       decimals := 18, isStakeable := true, isTestnet := true,
       stakingOptions := [
         { protocol := "Testnet Aave", type := .LIQUID, expectedApr := 5,
           minAmount := 1, riskLevel := .LOW, chainName := "sepolia" },
         { protocol := "Testnet Compound", type := .LIQUID, expectedApr := 21/5,
           minAmount := 1/2, riskLevel := .LOW, chainName := "sepolia" }] },
     { address := "0x6f14C02Fc1F78322cFd7d707ab90f18baD3B54f5", symbol := "USDC",
       decimals := 6, isStakeable := true, isTestnet := true,
       stakingOptions := [
         { protocol := "Testnet Compound", type := .LIQUID, expectedApr := 7/2,
           minAmount := 1, riskLevel := .LOW, chainName := "sepolia" },
         { protocol := "Testnet Aave", type := .LIQUID, expectedApr := 4,
           minAmount := 1, riskLevel := .LOW, chainName := "sepolia" }] },
     { address := "0xfFf9976782d46CC05630D1f6eBAb18b2324d6B14", symbol := "WETH",
       decimals := 18, isStakeable := true, isTestnet := true,
       stakingOptions := [
         { protocol := "Testnet Lido", type := .LIQUID, expectedApr := 5/2,
           minAmount := 1/1000, riskLevel := .LOW, chainName := "sepolia" },
         { protocol := "Testnet Uniswap", type := .YIELD_FARMING, expectedApr := 6,
           minAmount := 1/100, riskLevel := .MEDIUM, chainName := "sepolia" }] },
     { address := "0x25a233c2C94b62C3532a0BCA0186cfEfb6908D0A", symbol := "DAI",
       decimals := 18, isStakeable := true, isTestnet := true,
       stakingOptions := [
         { protocol := "Testnet MakerDAO", type := .LIQUID, expectedApr := 4,
           minAmount := 1, riskLevel := .LOW, chainName := "sepolia" },
         { protocol := "Testnet Aave", type := .LIQUID, expectedApr := 19/5,
           minAmount := 1, riskLevel := .LOW, chainName := "sepolia" }] }]
  else if chainName = "holesky" then
    [{ address := "0x94373a4919B3240D86eA41593D5eBa789FEF3848", symbol := "WETH",
       decimals := 18, isStakeable := true, isTestnet := true,
       stakingOptions := [
         { protocol := "Holesky Lido", type := .LIQUID, expectedApr := 14/5,
           minAmount := 1/1000, riskLevel := .LOW, chainName := "holesky" }] }]
  else if chainName = "baseSepolia" then
    [{ address := "0x036CbD53842c5426634e7929541eC2318f3dCF7e", symbol := "USDC",
       decimals := 6, isStakeable := true, isTestnet := true,
       stakingOptions := [
         { protocol := "Base Sepolia Moonwell", type := .LIQUID, expectedApr := 16/5,
           minAmount := 1, riskLevel := .MEDIUM, chainName := "baseSepolia" }] }]
  else if chainName = "arbitrumSepolia" then
    [{ address := "0x75faf114eafb1BDbe2F0316DF893fd58CE46AA4d", symbol := "USDC",
       decimals := 6, isStakeable := true, isTestnet := true,
       stakingOptions := [
         { protocol := "Arbitrum Sepolia Radiant", type := .LIQUID, expectedApr := 19/5,
           minAmount := 1, riskLevel := .MEDIUM, chainName := "arbitrumSepolia" }] }]
  else if chainName = "polygonAmoy" then
    [{ address := "0x360ad4f9a9A8EFe9A8DCB5f461c4Cc1047E1Dcf9", symbol := "WMATIC",
       decimals := 18, isStakeable := true, isTestnet := true,
       stakingOptions := [
         { protocol := "Amoy Staking", type := .LIQUID, expectedApr := 6,
           minAmount := 1, riskLevel := .MEDIUM, chainName := "polygonAmoy" }] }]
  else if chainName = "optimismSepolia" then
    [{ address := "0x5fd84259d66Cd46123540766Be93DFE6D43130D7", symbol := "USDC",
       decimals := 6, isStakeable := true, isTestnet := true,
       stakingOptions := [
         { protocol := "Optimism Sepolia Aave", type := .LIQUID, expectedApr := 7/2,
           minAmount := 1, riskLevel := .LOW, chainName := "optimismSepolia" }] }]
  else []

/-- `TOKEN_DATABASE` (mainnet catalogs), keyed by chain name. -/
def TOKEN_DATABASE (chainName : String) : List TokenConfig :=
  if chainName = "mainnet" then
    [{ address := "0xA0b86a33E6Db485E0f65b2f8b4b92c0e7b9c2c1e", symbol := "USDC",
       decimals := 6, isStakeable := true,
       stakingOptions := [
         { protocol := "Aave", type := .LIQUID, expectedApr := 9/2,
           minAmount := 100, riskLevel := .LOW, chainName := "mainnet" },
         { protocol := "Compound", type := .LIQUID, expectedApr := 19/5,
           minAmount := 50, riskLevel := .LOW, chainName := "mainnet" }] },
     { address := "0xdAC17F958D2ee523a2206206994597C13D831ec7", symbol := "USDT",
       decimals := 6, isStakeable := true,
       stakingOptions := [
         { protocol := "Aave", type := .LIQUID, expectedApr := 21/5,
           minAmount := 100, riskLevel := .LOW, chainName := "mainnet" }] },
     { address := "0x6B175474E89094C44Da98b954EedeAC495271d0F", symbol := "DAI",
       decimals := 18, isStakeable := true,
       stakingOptions := [
         { protocol := "MakerDAO DSR", type := .LIQUID, expectedApr := 5,
           minAmount := 1, riskLevel := .LOW, chainName := "mainnet" },
         { protocol := "Aave", type := .LIQUID, expectedApr := 43/10,
           minAmount := 50, riskLevel := .LOW, chainName := "mainnet" }] },
     { address := "0x1f9840a85d5af5bf1d1762f925bdaddc4201f984", symbol := "UNI",
       decimals := 18, isStakeable := false },
     { address := "0xae7ab96520de3a18e5e111b5eaab095312d7fe84", symbol := "stETH",
       decimals := 18, isStakeable := false }]
  else if chainName = "base" then
    [{ address := "0x833589fCD6eDb6E08f4c7C32D4f71b54bdA02913", symbol := "USDC",
       decimals := 6, isStakeable := true,
       stakingOptions := [
         { protocol := "Moonwell", type := .LIQUID, expectedApr := 7/2,
           minAmount := 50, riskLevel := .MEDIUM, chainName := "base" }] },
     { address := "0x4200000000000000000000000000000000000006", symbol := "WETH",
       decimals := 18, isStakeable := true,
       stakingOptions := [
         { protocol := "Moonwell", type := .LIQUID, expectedApr := 14/5,
           minAmount := 1/10, riskLevel := .MEDIUM, chainName := "base" }] }]
  else if chainName = "arbitrum" then
    [{ address := "0xaf88d065e77c8cC2239327C5EDb3A432268e5831", symbol := "USDC",
       decimals := 6, isStakeable := true,
       stakingOptions := [
         { protocol := "Radiant", type := .LIQUID, expectedApr := 4,
           minAmount := 50, riskLevel := .MEDIUM, chainName := "arbitrum" }] },
     { address := "0x82aF49447D8a07e3bd95BD0d56f35241523fBab1", symbol := "WETH",
       decimals := 18, isStakeable := true,
       stakingOptions := [
         { protocol := "Radiant", type := .LIQUID, expectedApr := 5/2,
           minAmount := 1/10, riskLevel := .MEDIUM, chainName := "arbitrum" }] }]
  else []

/-- `TESTNET_ETH_STAKING_OPTIONS`. -/
def TESTNET_ETH_STAKING_OPTIONS : List StakingOption :=
  [{ protocol := "Testnet Lido", type := .LIQUID, expectedApr := 5/2,
     minAmount := 1/1000, riskLevel := .LOW, chainName := "sepolia" },
   { protocol := "Testnet Rocket Pool", type := .LIQUID, expectedApr := 23/10,
     minAmount := 1/1000, riskLevel := .LOW, chainName := "sepolia" },
   { protocol := "Sepolia Beacon Chain", type := .LOCKED, expectedApr := 3,
     minAmount := 1/10, lockPeriod := some 1, riskLevel := .MEDIUM,
     chainName := "sepolia" },
   { protocol := "Testnet Frax", type := .LIQUID, expectedApr := 14/5,
     minAmount := 1/1000, riskLevel := .MEDIUM, chainName := "sepolia" }]

/-- `ETH_STAKING_OPTIONS`. -/
def ETH_STAKING_OPTIONS : List StakingOption :=
  [{ protocol := "Lido", type := .LIQUID, expectedApr := 16/5,
     minAmount := 1/100, riskLevel := .LOW, chainName := "mainnet" },
   { protocol := "Rocket Pool", type := .LIQUID, expectedApr := 31/10,
     minAmount := 1/100, riskLevel := .LOW, chainName := "mainnet" },
   { protocol := "Coinbase Wrapped Staked ETH", type := .LIQUID, expectedApr := 3,
     minAmount := 1/1000, riskLevel := .LOW, chainName := "mainnet" },
   { protocol := "EigenLayer", type := .RESTAKING, expectedApr := 9/2,
     minAmount := 32, lockPeriod := some 21, riskLevel := .HIGH,
     chainName := "mainnet" }]

/-- Raw chain-query results for one chain: the native-balance query (`none`
models a failed `getBalance`, which the code replaces by `0n`) and the
per-token `balanceOf` queries keyed by contract address (`none` models a
failed or rejected query, which the code skips). -/
structure ChainRaw where
  native : Option ℚ
  token : String → Option ℚ

/-- The network environment: per chain name, either a chain-level failure
(client construction or any other escape from `getTokenBalancesForChain`) or
the raw query results. -/
def Env : Type := String → Except Unit ChainRaw

/-- The per-token body of the `Promise.allSettled` loop of
`getTokenBalancesForChain`: a failed `balanceOf` query is skipped, and a
holding is kept only when the fetched balance is positive and above the dust
threshold (`0.00001` on testnet chains, `0.001` on mainnet chains). -/
def tokenHoldingFor (raw : ChainRaw) (chainName : String) (isTestnet : Bool)
    (tc : TokenConfig) : Option TokenHolding :=
  let minThreshold : ℚ := if isTestnet then 1/100000 else 1/1000
  match raw.token tc.address with
  | none => none
  | some balance =>
    if 0 < balance ∧ minThreshold < balance then
      some { symbol := tc.symbol, address := tc.address, balance := balance,
             decimals := tc.decimals, chainName := chainName,
             isStakeable := tc.isStakeable, stakingOptions := tc.stakingOptions,
             isTestnet := tc.isTestnet || isTestnet }
    else none

/-- `InternalTokenBalanceProvider.getTokenBalancesForChain`: fetches the
native balance (`0` on failure), selects the testnet or mainnet token catalog
for the chain, and keeps the holdings passing the dust filter. -/
def getTokenBalancesForChain (env : Env) (address : String) (chainName : String) :
    Except Unit TokenBalanceData :=
  match env chainName with
  | .error e => .error e
  | .ok raw =>
    let isTestnet := isTestnetChain chainName
    let tokens := if isTestnet then TESTNET_TOKEN_DATABASE chainName
                  else TOKEN_DATABASE chainName
    .ok { address := address, chainName := chainName,
          nativeBalance := raw.native.getD 0,
          tokenHoldings := tokens.filterMap (tokenHoldingFor raw chainName isTestnet),
          isTestnet := isTestnet }

/-- Chain set targeted by `getTokenBalances`: all testnet chains in testnet
mode, otherwise the wallet provider's supported chains when available
(`supported`), falling back to every key of `CHAIN_CONFIG`. -/
def chainsToCheck (supported : Option (List String)) (testnetOnly : Bool) :
    List String :=
  if testnetOnly then getTestnetChains
  else supported.getD (CHAIN_CONFIG.map (fun p => p.1))

/-- `InternalTokenBalanceProvider.getTokenBalances` (cache layer aside): per
targeted chain, a failed fetch is logged and the chain omitted; a successful
snapshot is kept only when it has holdings, a positive native balance, or the
call is in testnet mode. The source fans the chains out with `Promise.all`
and pushes completions in completion order; the list is modelled in registry
order (the spec's required deterministic assembly order). -/
def getTokenBalances (env : Env) (address : String)
    (supported : Option (List String)) (testnetOnly : Bool) :
    List TokenBalanceData :=
  (chainsToCheck supported testnetOnly).filterMap (fun chainName =>
    match getTokenBalancesForChain env address chainName with
    | .error _ => none
    | .ok chainData =>
      if chainData.tokenHoldings.length > 0 ∨ 0 < chainData.nativeBalance ∨
         testnetOnly = true then
        some chainData
      else none)

/-- Stablecoin symbol list used by `analyzeTokenHoldings`. -/
def stablecoinSymbols : List String := ["USDC", "USDT", "DAI", "BUSD", "FRAX"]

/-- DeFi symbol list used by `analyzeTokenHoldings`. -/
def defiSymbols : List String := ["UNI", "SUSHI", "AAVE", "COMP", "CRV", "YFI", "stETH"]

/-- Governance symbol list used by `analyzeTokenHoldings`. -/
def governanceSymbols : List String := ["UNI", "COMP", "AAVE", "YFI", "MKR"]

/-- Stable insertion of a holding into a list sorted by descending balance
(models the comparator `(a, b) => parseFloat(b.balance) - parseFloat(a.balance)`). -/
def insertByBalance (t : TokenHolding) : List TokenHolding → List TokenHolding
  | [] => [t]
  | u :: l => if u.balance ≤ t.balance then t :: u :: l else u :: insertByBalance t l

/-- Stable sort of holdings by descending balance. -/
def sortByBalance : List TokenHolding → List TokenHolding
  | [] => []
  | t :: l => insertByBalance t (sortByBalance l)

/-- Herfindahl concentration index of `analyzeTokenHoldings`: the reduce
`risk + share * share` over the holdings, with `share = balance / totalValue`. -/
def concentrationRiskOf (tokenHoldings : List TokenHolding) : ℚ :=
  let totalValue := (tokenHoldings.map (fun t => t.balance)).sum
  tokenHoldings.foldl
    (fun risk t => risk + (t.balance / totalValue) * (t.balance / totalValue)) 0

/-- `WalletAnalyzer.analyzeTokenHoldings`. -/
def analyzeTokenHoldings (tokenHoldings : List TokenHolding) : TokenAnalysis :=
  let stablecoins := tokenHoldings.filter (fun t => t.symbol ∈ stablecoinSymbols)
  let defiTokens := tokenHoldings.filter (fun t => t.symbol ∈ defiSymbols)
  let governanceTokens := tokenHoldings.filter (fun t => t.symbol ∈ governanceSymbols)
  let stakeableAssets := tokenHoldings.filter (fun t => t.isStakeable)
  let sortedHoldings := sortByBalance tokenHoldings
  let majorHoldings := sortedHoldings.take 5
  let concentrationRisk := concentrationRiskOf tokenHoldings
  let diversificationLevel : DivLevel :=
    if 1/2 < concentrationRisk then .LOW
    else if 1/4 < concentrationRisk then .MEDIUM
    else .HIGH
  { totalTokens := tokenHoldings.length, majorHoldings := majorHoldings,
    stablecoins := stablecoins, defiTokens := defiTokens,
    governanceTokens := governanceTokens, stakeableAssets := stakeableAssets,
    concentrationRisk := concentrationRisk,
    diversificationLevel := diversificationLevel }

/-- Semantic token category used by `calculateDiversificationScore`. -/
def tokenCategory (t : TokenHolding) : String :=
  if t.symbol ∈ ["USDC", "USDT", "DAI"] then "stablecoin"
  else if t.symbol ∈ ["UNI", "SUSHI", "AAVE"] then "defi"
  else "other"

/-- `WalletAnalyzer.calculateDiversificationScore`. -/
def calculateDiversificationScore (tokenHoldings : List TokenHolding)
    (nativeBalances : List (String × ℚ)) : ℚ :=
  let totalAssets : ℚ := tokenHoldings.length + nativeBalances.length
  let chainCount : ℚ := nativeBalances.length
  let score := min (totalAssets * 5) 50 + min (chainCount * 10) 30
  let tokenTypes := (tokenHoldings.map tokenCategory).dedup
  min (score + tokenTypes.length * 5) 100

/-- `WalletAnalyzer.calculateLiquidityRisk`. -/
def calculateLiquidityRisk (tokenHoldings : List TokenHolding) : ℚ :=
  let liquidTokens := (tokenHoldings.filter
    (fun t => t.symbol ∈ ["USDC", "USDT", "DAI", "WETH", "UNI"])).length
  let totalTokens := tokenHoldings.length
  if 0 < totalTokens then 1 - (liquidTokens : ℚ) / totalTokens else 0

/-- `WalletAnalyzer.mapRiskScoreToTolerance`. -/
def mapRiskScoreToTolerance (score : ℚ) : RiskTolerance :=
  if score < 25 then .CONSERVATIVE
  else if score < 50 then .MODERATE
  else if score < 75 then .AGGRESSIVE
  else .DEGENERATE

/-- `WalletAnalyzer.getMaxPositionRatio`. -/
def getMaxPositionRatio (riskScore : ℚ) : ℚ :=
  if riskScore < 25 then 1/10
  else if riskScore < 50 then 1/5
  else if riskScore < 75 then 2/5
  else 3/5

/-- `WalletAnalyzer.calculateLockPeriodTolerance`. -/
def calculateLockPeriodTolerance (riskScore : ℚ) : ℕ :=
  if riskScore < 25 then 7
  else if riskScore < 50 then 30
  else if riskScore < 75 then 90
  else 365

/-- `WalletAnalyzer.assessComprehensiveRisk`: additive model from a base of
50, clamped to `[0, 100]`. -/
def assessComprehensiveRisk (nativeBalance : ℚ) (tokenHoldings : List TokenHolding)
    (tokenAnalysis : TokenAnalysis) : WalletRiskProfile :=
  let count : ℚ := tokenHoldings.length
  let sizeAdj : ℚ :=
    if 100 < nativeBalance + count then 15
    else if 10 < nativeBalance + count then 10
    else if nativeBalance + count < 1 then -15
    else 0
  let tokenBonus : ℚ := min (count * 2) 20
  let stablecoinRatio : ℚ :=
    (tokenAnalysis.stablecoins.length : ℚ) / (max tokenHoldings.length 1 : ℕ)
  let stableAdj : ℚ :=
    if 1/2 < stablecoinRatio then -10
    else if stablecoinRatio < 1/10 then 10
    else 0
  let concAdj : ℚ := if 1/2 < tokenAnalysis.concentrationRisk then 15 else 0
  let riskScore := max 0 (min 100 (50 + sizeAdj + tokenBonus + stableAdj + concAdj))
  let stakingRiskTolerance : RiskLevel :=
    if riskScore < 30 then .LOW else if 70 < riskScore then .HIGH else .MEDIUM
  { riskScore := riskScore,
    riskTolerance := mapRiskScoreToTolerance riskScore,
    maxSinglePosition := nativeBalance * getMaxPositionRatio riskScore,
    diversificationLevel := tokenAnalysis.diversificationLevel,
    lockPeriodTolerance := calculateLockPeriodTolerance riskScore,
    concentrationRisk := tokenAnalysis.concentrationRisk,
    liquidityRisk := calculateLiquidityRisk tokenHoldings,
    stakingRiskTolerance := stakingRiskTolerance }

/-- `WalletAnalyzer.assessLiquidityProfile`. -/
def assessLiquidityProfile (tokenHoldings : List TokenHolding)
    (nativeBalance : ℚ) : LiquidityProfile :=
  let liquidTokens := tokenHoldings.filter
    (fun t => t.symbol ∈ ["USDC", "USDT", "DAI", "WETH"] ∧ 0 < t.balance)
  let stakedTokens := tokenHoldings.filter
    (fun t => t.symbol ∈ ["stETH", "rETH", "cbETH"] ∧ 0 < t.balance)
  let totalValue := nativeBalance + (tokenHoldings.map (fun t => t.balance)).sum
  let liquidityRatio : ℚ :=
    (liquidTokens.length : ℚ) / (max tokenHoldings.length 1 : ℕ)
  let stakingCapacity := max 0 (totalValue * (1 - max liquidityRatio (1/5)))
  { liquidityRatio := liquidityRatio,
    withdrawalFrequency := if 1/2 < liquidityRatio then 4 else 1,
    emergencyBuffer := totalValue * (1/10),
    preferredLockPeriods := if 3/10 < liquidityRatio then [0, 7, 30] else [30, 90, 365],
    liquidAssets := liquidTokens, stakedAssets := stakedTokens,
    stakingCapacity := stakingCapacity }

/-- `WalletAnalyzer.inferBehaviorFromHoldings` (presentational strings
dropped; pattern names kept for identification). -/
def inferBehaviorFromHoldings (tokenHoldings : List TokenHolding)
    (tokenBalances : List TokenBalanceData) : List BehaviorPattern :=
  let multiChain : List BehaviorPattern :=
    if 2 < tokenBalances.length then
      [{ pattern := "Multi-Chain Power User", frequency := tokenBalances.length,
         confidence := 9/10 }]
    else []
  let defiTokens := tokenHoldings.filter
    (fun t => t.symbol ∈ ["UNI", "SUSHI", "AAVE", "COMP", "CRV", "stETH"])
  let defi : List BehaviorPattern :=
    if 2 < defiTokens.length then
      [{ pattern := "DeFi Enthusiast", frequency := defiTokens.length,
         confidence := 4/5 }]
    else []
  let testnetTokens := tokenHoldings.filter
    (fun t => t.isTestnet ∧ 0 < t.balance)
  let testnet : List BehaviorPattern :=
    if 0 < testnetTokens.length then
      [{ pattern := "Testnet User", frequency := testnetTokens.length,
         confidence := 3/5 }]
    else []
  multiChain ++ defi ++ testnet

/-- Risk-compatibility filter applied to staking options (shared by the ETH
and token recommendation branches): CONSERVATIVE keeps only LOW-risk options,
MODERATE excludes HIGH-risk options, any other tolerance admits all. -/
def riskFilterOption (tolerance : RiskTolerance) (o : StakingOption) : Bool :=
  match tolerance with
  | .CONSERVATIVE => o.riskLevel = .LOW
  | .MODERATE => ¬ (o.riskLevel = .HIGH)
  | _ => true

/-- ETH (native-balance) branch of
`WalletAnalyzer.generateRealStakingRecommendations` for one
`nativeBalances` entry; `none` models the skips. The `||` fallback APR 3.2
is modelled via `getD` (catalog APRs are never the falsy `0`). -/
def nativeStakingRecommendation (strategy : StakingStrategy) (testnetOnly : Bool)
    (chainName : String) (balance : ℚ) : Option StakingRecommendation :=
  let ethBalance := balance
  let isTestnet := isTestnetChain chainName
  if testnetOnly = true ∧ ¬ isTestnet = true then none
  else if ¬ testnetOnly = true ∧ isTestnet = true then none
  else
    let minThreshold : ℚ := if isTestnet then 1/100 else 1/10
    if minThreshold < ethBalance then
      let recommendedEthAmount : ℚ :=
        if isTestnet then ethBalance * (2/5)
        else ethBalance * (strategy.recommendedAllocation / 100)
      let minRecommendation : ℚ := if isTestnet then 1/200 else 1/20
      if minRecommendation ≤ recommendedEthAmount then
        let ethOptions := (if isTestnet then TESTNET_ETH_STAKING_OPTIONS
          else ETH_STAKING_OPTIONS).filter (riskFilterOption strategy.riskTolerance)
        if 0 < ethOptions.length then
          some { recommendedAmount := toFixed6 recommendedEthAmount,
                 token := "ETH", options := ethOptions,
                 expectedReturn := toFixed6 (recommendedEthAmount *
                   ((ethOptions.head?.map (fun o => o.expectedApr)).getD (16/5)) / 100),
                 priority := if 5 < ethBalance then .HIGH
                   else if 1 < ethBalance then .MEDIUM else .LOW,
                 isTestnet := isTestnet }
        else none
      else none
    else none

/-- The `stakeableTokens` filter of
`WalletAnalyzer.generateRealStakingRecommendations`. -/
def stakeableTokenFilter (testnetOnly : Bool) (t : TokenHolding) : Bool :=
  let hasBalance := decide (0 < t.balance)
  let stakeable := t.isStakeable && !t.stakingOptions.isEmpty
  if testnetOnly then t.isTestnet && hasBalance && stakeable
  else hasBalance && stakeable && !t.isTestnet

/-- Token branch of `WalletAnalyzer.generateRealStakingRecommendations` for
one stakeable holding. -/
def tokenStakingRecommendation (strategy : StakingStrategy) (t : TokenHolding) :
    Option StakingRecommendation :=
  let balance := t.balance
  let minStakeAmount := (t.stakingOptions.head?.map (fun o => o.minAmount)).getD 0
  let minRecommendAmount : ℚ := if t.isTestnet then 1 else 50
  if max minStakeAmount (1/10) < balance ∧ minRecommendAmount ≤ balance then
    let recommendedAmount := balance * (7/10)
    let suitableOptions := t.stakingOptions.filter
      (riskFilterOption strategy.riskTolerance)
    if 0 < suitableOptions.length then
      some { recommendedAmount := toFixed6 recommendedAmount, token := t.symbol,
             options := suitableOptions,
             expectedReturn := toFixed6 (recommendedAmount *
               (((suitableOptions.head?.map (fun o => o.expectedApr)).getD 0) / 100)),
             priority := if 1000 < balance then .HIGH
               else if 100 < balance then .MEDIUM else .LOW,
             isTestnet := t.isTestnet }
    else none
  else none

/-- Numeric rank of a priority (`priorityOrder` in the final sort). -/
def priorityNum : Priority → ℕ
  | .HIGH => 3
  | .MEDIUM => 2
  | .LOW => 1

/-- Stable insertion for the descending-priority sort. -/
def insertByPriority (r : StakingRecommendation) :
    List StakingRecommendation → List StakingRecommendation
  | [] => [r]
  | s :: l =>
    if priorityNum s.priority ≤ priorityNum r.priority then r :: s :: l
    else s :: insertByPriority r l

/-- Stable sort by descending priority
(`priorityOrder[b.priority] - priorityOrder[a.priority]`). -/
def sortByPriority : List StakingRecommendation → List StakingRecommendation
  | [] => []
  | r :: l => insertByPriority r (sortByPriority l)

/-- `WalletAnalyzer.generateRealStakingRecommendations`: native-balance
recommendations, then token recommendations for the filtered stakeable
holdings, sorted by descending priority. The `riskProfile` argument feeds
only the omitted reasoning text. -/
def generateRealStakingRecommendations (nativeBalances : List (String × ℚ))
    (tokenHoldings : List TokenHolding) (strategy : StakingStrategy)
    (_riskProfile : WalletRiskProfile) (testnetOnly : Bool) :
    List StakingRecommendation :=
  let ethRecs := nativeBalances.filterMap
    (fun p => nativeStakingRecommendation strategy testnetOnly p.1 p.2)
  let stakeableTokens := tokenHoldings.filter (stakeableTokenFilter testnetOnly)
  let tokenRecs := stakeableTokens.filterMap (tokenStakingRecommendation strategy)
  sortByPriority (ethRecs ++ tokenRecs)

/-- Tier-based base selection shared by both strategy generators: allocation,
preferred protocols, horizon in days, diversification goal. -/
def tierBase (tolerance : RiskTolerance) (liquidityRatio : ℚ) :
    ℚ × List String × ℕ × ℕ :=
  match tolerance with
  | .CONSERVATIVE =>
    (min 40 ((1 - liquidityRatio) * 60), ["Lido", "Coinbase Wrapped Staked ETH"], 180, 1)
  | .MODERATE =>
    (min 60 ((1 - liquidityRatio) * 70), ["Lido", "Rocket Pool", "Aave"], 365, 2)
  | .AGGRESSIVE =>
    (min 80 ((1 - liquidityRatio) * 85), ["Lido", "Rocket Pool", "EigenLayer", "Aave"],
     730, 3)
  | .DEGENERATE =>
    (min 90 ((1 - liquidityRatio) * 95),
     ["EigenLayer", "Rocket Pool", "Radiant", "Moonwell"], 1095, 4)
  | .UNKNOWN => (30, ["Lido"], 365, 2)

/-- `WalletAnalyzer.generateStakingStrategy` (the current, testnet-aware
variant): testnet runs with any meaningful balance get a fixed 40%
allocation, a 90-day horizon and goal 1; mainnet runs use the tier switch;
testnet runs without meaningful balance keep the initial values
(allocation 0, horizon 365, goal 2). The `|| "MODERATE"` fallback on the
tolerance is the identity (enum strings are never falsy). -/
def generateStakingStrategy (riskProfile : WalletRiskProfile)
    (liquidityNeeds : LiquidityProfile) (totalBalance : ℚ) (isTestnet : Bool) :
    StakingStrategy :=
  let base : ℚ × List String × ℕ × ℕ :=
    if isTestnet = true ∧ 1/100 < totalBalance then (40, [], 90, 1)
    else if ¬ isTestnet = true then
      tierBase riskProfile.riskTolerance liquidityNeeds.liquidityRatio
    else (0, [], 365, 2)
  { recommendedAllocation := base.1, preferredProtocols := base.2.1,
    riskTolerance := riskProfile.riskTolerance,
    liquidityBuffer := liquidityNeeds.liquidityRatio * 100,
    stakingHorizon := base.2.2.1, diversificationGoal := base.2.2.2 }

namespace Legacy

/-- `WalletAnalyzer.generateStakingStrategy` from the earlier
`wallet-analyzer.ts` variant: same tier switch, then the portfolio-size
adjustment — `max(allocation - 20, 10)` below 1 unit, `min(allocation + 10,
90)` above 50 units. -/
def generateStakingStrategy (riskProfile : WalletRiskProfile)
    (liquidityNeeds : LiquidityProfile) (totalBalance : ℚ) : StakingStrategy :=
  let base := tierBase riskProfile.riskTolerance liquidityNeeds.liquidityRatio
  let adjusted : ℚ :=
    if totalBalance < 1 then max (base.1 - 20) 10
    else if 50 < totalBalance then min (base.1 + 10) 90
    else base.1
  { recommendedAllocation := adjusted, preferredProtocols := base.2.1,
    riskTolerance := riskProfile.riskTolerance,
    liquidityBuffer := liquidityNeeds.liquidityRatio * 100,
    stakingHorizon := base.2.2.1, diversificationGoal := base.2.2.2 }

end Legacy

/-- `WalletAnalyzer.performComprehensiveAnalysisWithStaking`, data path: the
aggregated per-chain snapshots are flattened into holdings and native
balances and fed through the pure scoring pipeline. Configuration/provider
validation failures happen before this point and are modelled at the
`analyzeWalletStep` layer. -/
def performAnalysis (env : Env) (address : String)
    (supported : Option (List String)) (testnetOnly : Bool) : WalletAnalysis :=
  let tokenBalances := getTokenBalances env address supported testnetOnly
  let allTokenHoldings := (tokenBalances.map (fun c => c.tokenHoldings)).flatten
  let nativeBalances := tokenBalances.map (fun c => (c.chainName, c.nativeBalance))
  let totalNativeBalance := (nativeBalances.map (fun p => p.2)).sum
  let currentStakingPositions := allTokenHoldings.filter
    (fun t => t.symbol ∈ ["stETH", "rETH", "cbETH", "sfrxETH"] ∧ 0 < t.balance)
  let tokenAnalysis := analyzeTokenHoldings allTokenHoldings
  let diversificationScore :=
    calculateDiversificationScore allTokenHoldings nativeBalances
  let riskProfile :=
    assessComprehensiveRisk totalNativeBalance allTokenHoldings tokenAnalysis
  let behaviorPatterns := inferBehaviorFromHoldings allTokenHoldings tokenBalances
  let liquidityNeeds := assessLiquidityProfile allTokenHoldings totalNativeBalance
  let stakingStrategy :=
    generateStakingStrategy riskProfile liquidityNeeds totalNativeBalance testnetOnly
  let stakingRecommendations := generateRealStakingRecommendations
    nativeBalances allTokenHoldings stakingStrategy riskProfile testnetOnly
  { address := address, totalBalance := totalNativeBalance,
    tokenHoldings := allTokenHoldings, nativeBalances := nativeBalances,
    diversificationScore := diversificationScore,
    stakingRecommendations := stakingRecommendations,
    currentStakingPositions := currentStakingPositions,
    tokenAnalysis := tokenAnalysis, riskProfile := riskProfile,
    stakingStrategy := stakingStrategy, behaviorPatterns := behaviorPatterns,
    liquidityNeeds := liquidityNeeds }

/-- The analysis-cache key of `WalletAnalyzer.analyzeWallet`. -/
def analysisCacheKey (address : String) (testnetOnly : Bool) : String :=
  address ++ "_analysis_" ++ (if testnetOnly then "testnet" else "all")

/-- `WalletAnalyzer.analyzeWallet`, cache discipline: on a cache hit the
cached analysis is returned; on a miss the comprehensive analysis
(`compute`, which may fail with a configuration/provider/fetch error) is
run; its success is cached and returned, its failure is re-thrown wrapped in
the `Failed to analyze wallet: ...` message without touching the cache. -/
def analyzeWalletStep (cache : Cache WalletAnalysis) (address : String)
    (testnetOnly : Bool) (now : ℤ) (compute : Except String WalletAnalysis) :
    Except String WalletAnalysis × Cache WalletAnalysis :=
  let key := analysisCacheKey address testnetOnly
  match cache.get key now with
  | (some cached, c1) => (.ok cached, c1)
  | (none, c1) =>
    match compute with
    | .ok analysis => (.ok analysis, c1.set key analysis now)
    | .error e => (.error ("Failed to analyze wallet: " ++ e), c1)


/-- Reduction of `Cache.get` when the key is present. -/
theorem cache_get_of_store_eq {T : Type} (c : Cache T) (key : String) (now : ℤ)
    (item : CacheEntry T) (h : c.store key = some item) :
    c.get key now =
      if now - item.timestamp > c.ttl then
        (none, { c with store := fun k => if k = key then none else c.store k })
      else (some item.data, c) := by
  simp only [Cache.get, h]

/-- Reduction of `Cache.get` when the key is absent. -/
theorem cache_get_of_store_none {T : Type} (c : Cache T) (key : String) (now : ℤ)
    (h : c.store key = none) : c.get key now = (none, c) := by
  simp only [Cache.get, h]

/-- Reduction of the store of `Cache.set`. -/
theorem cache_set_store {T : Type} (c : Cache T) (key : String) (v : T) (t : ℤ)
    (k : String) :
    (c.set key v t).store k = if k = key then some ⟨v, t⟩ else c.store k := rfl

/-- Concrete cache used to witness the TTL-cache claim. -/
def cacheC8 : Cache ℕ := ⟨100, fun k => if k = "a" then some ⟨7, 0⟩ else none⟩

/-- C8. TTL cache lazy expiry: a `get` on an entry whose age exceeds the TTL
deletes that entry and returns absent; a `get` within the TTL returns exactly
the most recently set value; and entries are removed only by such an expired
`get` — a `get` never touches other keys, a non-expired `get` leaves the
whole store unchanged, and a `set` never removes any entry. -/
theorem C8_cache_lazy_expiry {T : Type} (c : Cache T) (key : String) (now : ℤ)
    (e : CacheEntry T) :
    (c.store key = some e → c.ttl < now - e.timestamp →
      (c.get key now).1 = none ∧ (c.get key now).2.store key = none) ∧
    (∀ (v : T) (t : ℤ), now - t ≤ c.ttl →
      ((c.set key v t).get key now).1 = some v) ∧
    (∀ k, k ≠ key → (c.get key now).2.store k = c.store k) ∧
    (c.store key = some e → now - e.timestamp ≤ c.ttl →
      (c.get key now).2 = c) ∧
    (∀ (v : T) (t : ℤ) (k : String), c.store k ≠ none →
      (c.set key v t).store k ≠ none) := by
  refine ⟨?_, ?_, ?_, ?_, ?_⟩
  · intro hk hexp
    rw [cache_get_of_store_eq c key now e hk, if_pos (by omega)]
    simp
  · intro v t ht
    rw [cache_get_of_store_eq (c.set key v t) key now ⟨v, t⟩
      (by rw [cache_set_store, if_pos rfl])]
    have hcond : ¬ now - (⟨v, t⟩ : CacheEntry T).timestamp > (c.set key v t).ttl := by
      show ¬ now - t > c.ttl
      omega
    rw [if_neg hcond]
  · intro k hk
    cases h : c.store key with
    | none => rw [cache_get_of_store_none c key now h]
    | some item =>
      rw [cache_get_of_store_eq c key now item h]
      by_cases hexp : now - item.timestamp > c.ttl
      · rw [if_pos hexp]
        simp [if_neg hk]
      · rw [if_neg hexp]
  · intro hk hfresh
    rw [cache_get_of_store_eq c key now e hk, if_neg (by omega)]
  · intro v t k hk
    rw [cache_set_store]
    by_cases h : k = key
    · simp [h]
    · rw [if_neg h]; exact hk

/-- Witness for C8 at a concrete cache: at time 200 the entry written at time
0 with TTL 100 is expired — the `get` returns absent and deletes it — and a
value set at time 150 is returned by a `get` at time 200. -/
theorem C8_cache_lazy_expiry_witness :
    (cacheC8.get "a" 200).1 = none ∧ (cacheC8.get "a" 200).2.store "a" = none ∧
    ((cacheC8.set "a" 9 150).get "a" 200).1 = some 9 := by
  have h := C8_cache_lazy_expiry cacheC8 "a" 200 ⟨7, 0⟩
  exact ⟨(h.1 rfl (by decide)).1, (h.1 rfl (by decide)).2, h.2.1 9 150 (by decide)⟩

/-- C10. Failure atomicity of the analysis cache: when the cache misses for
the `(address, testnetOnly)` key and the comprehensive analysis fails, the
call propagates the wrapped typed failure, stores nothing under the key
(afterwards the key maps to nothing), leaves every other key unchanged, and
a subsequent call for the same key re-runs the full analysis (its outcome is
whatever the fresh computation produces). -/
theorem C10_failure_atomicity (cache : Cache WalletAnalysis) (address : String)
    (testnetOnly : Bool) (now : ℤ) (e : String)
    (hmiss : (cache.get (analysisCacheKey address testnetOnly) now).1 = none) :
    (analyzeWalletStep cache address testnetOnly now (.error e)).1 =
      .error ("Failed to analyze wallet: " ++ e) ∧
    (analyzeWalletStep cache address testnetOnly now (.error e)).2.store
      (analysisCacheKey address testnetOnly) = none ∧
    (∀ k, k ≠ analysisCacheKey address testnetOnly →
      (analyzeWalletStep cache address testnetOnly now (.error e)).2.store k =
        cache.store k) ∧
    (∀ (now₂ : ℤ) (a : WalletAnalysis),
      (analyzeWalletStep
        (analyzeWalletStep cache address testnetOnly now (.error e)).2
        address testnetOnly now₂ (.ok a)).1 = .ok a) := by
  set key := analysisCacheKey address testnetOnly with hkey
  have hstep : analyzeWalletStep cache address testnetOnly now (.error e) =
      (.error ("Failed to analyze wallet: " ++ e), (cache.get key now).2) := by
    simp only [analyzeWalletStep, ← hkey]
    rcases hget : cache.get key now with ⟨r, c1⟩
    rcases r with _ | v
    · rfl
    · rw [hget] at hmiss
      simp at hmiss
  have hnone : (cache.get key now).2.store key = none := by
    cases h : cache.store key with
    | none => rw [cache_get_of_store_none cache key now h]; exact h
    | some item =>
      rw [cache_get_of_store_eq cache key now item h]
      by_cases hexp : now - item.timestamp > cache.ttl
      · simp [if_pos hexp]
      · rw [cache_get_of_store_eq cache key now item h, if_neg hexp] at hmiss
        simp at hmiss
  have hother : ∀ k, k ≠ key → (cache.get key now).2.store k = cache.store k := by
    intro k hk
    cases h : cache.store key with
    | none => rw [cache_get_of_store_none cache key now h]
    | some item =>
      rw [cache_get_of_store_eq cache key now item h]
      by_cases hexp : now - item.timestamp > cache.ttl
      · rw [if_pos hexp]
        simp [if_neg hk]
      · rw [if_neg hexp]
  refine ⟨by rw [hstep], by rw [hstep]; exact hnone, ?_, ?_⟩
  · intro k hk
    rw [hstep]
    exact hother k hk
  · intro now₂ a
    rw [hstep]
    simp only [analyzeWalletStep, ← hkey,
      cache_get_of_store_none _ key now₂ hnone]

/-- A reduce of the form `acc + f x` from `a` is `a` plus the sum of the map. -/
theorem foldl_add_eq_sum {α : Type} (f : α → ℚ) (l : List α) (a : ℚ) :
    l.foldl (fun acc x => acc + f x) a = a + (l.map f).sum := by
  induction l generalizing a with
  | nil => simp
  | cons x l ih => simp [ih, add_assoc]

/-- Dividing a list elementwise divides its sum. -/
theorem list_sum_map_div (l : List ℚ) (c : ℚ) :
    (l.map (fun b => b / c)).sum = l.sum / c := by
  induction l with
  | nil => simp
  | cons x l ih => simp [ih, add_div]

/-- Pointwise AM-GM summed over a list. -/
theorem list_two_mul_sum_le (a : ℚ) (l : List ℚ) :
    2 * a * l.sum ≤ l.length * (a * a) + (l.map (fun b => b * b)).sum := by
  induction l with
  | nil => simp
  | cons x l ih =>
    simp only [List.sum_cons, List.map_cons, List.length_cons]
    push_cast
    nlinarith [sq_nonneg (a - x)]

/-- Cauchy-Schwarz for list sums: the square of the sum is at most the length
times the sum of squares. -/
theorem list_sq_sum_le (l : List ℚ) :
    l.sum * l.sum ≤ l.length * (l.map (fun b => b * b)).sum := by
  induction l with
  | nil => simp
  | cons x l ih =>
    simp only [List.sum_cons, List.map_cons, List.length_cons]
    push_cast
    nlinarith [list_two_mul_sum_le x l]

/-- Herfindahl bounds over a raw list of positive balances. -/
theorem herfindahl_core (l : List ℚ) (hne : l ≠ []) (hpos : ∀ b ∈ l, 0 < b) :
    1 / l.length ≤ (l.map (fun b => (b / l.sum) * (b / l.sum))).sum ∧
    (l.map (fun b => (b / l.sum) * (b / l.sum))).sum ≤ 1 ∧
    ((l.map (fun b => (b / l.sum) * (b / l.sum))).sum = 1 ↔ l.length = 1) := by
  have hT : 0 < l.sum := List.sum_pos l hpos hne
  have hpoint : ∀ b ∈ l, (b / l.sum) * (b / l.sum) ≤ b / l.sum := by
    intro b hb
    have h0 : 0 < b := hpos b hb
    have hle : b ≤ l.sum :=
      List.single_le_sum (fun x hx => le_of_lt (hpos x hx)) b hb
    have h1 : b / l.sum ≤ 1 := (div_le_one hT).mpr hle
    have h2 : 0 ≤ b / l.sum := le_of_lt (div_pos h0 hT)
    nlinarith
  have hshare : (l.map (fun b => b / l.sum)).sum = 1 := by
    rw [list_sum_map_div]
    exact div_self (ne_of_gt hT)
  have hupper : (l.map (fun b => (b / l.sum) * (b / l.sum))).sum ≤ 1 := by
    calc (l.map (fun b => (b / l.sum) * (b / l.sum))).sum
        ≤ (l.map (fun b => b / l.sum)).sum := List.sum_le_sum hpoint
      _ = 1 := hshare
  have hlen : 0 < l.length := List.length_pos.mpr hne
  have hlower : 1 / l.length ≤ (l.map (fun b => (b / l.sum) * (b / l.sum))).sum := by
    have hcs2 : 1 ≤ l.length * (l.map (fun b => (b / l.sum) * (b / l.sum))).sum := by
      calc (1:ℚ) = 1 * 1 := by ring
        _ ≤ l.length * ((l.map (fun b => b / l.sum)).map (fun x => x * x)).sum := by
            have h := list_sq_sum_le (l.map (fun b => b / l.sum))
            rw [hshare, List.length_map] at h
            exact h
        _ = l.length * (l.map (fun b => (b / l.sum) * (b / l.sum))).sum := by
            rw [List.map_map]
            rfl
    rw [div_le_iff₀ (by exact_mod_cast hlen)]
    linarith [hcs2]
  refine ⟨hlower, hupper, ?_, ?_⟩
  · intro heq
    by_contra hn1
    rcases l with _ | ⟨x, t₀⟩
    · exact hne rfl
    rcases t₀ with _ | ⟨y, t⟩
    · exact hn1 rfl
    have hypos : ∀ b ∈ y :: t, 0 < b := fun b hb => hpos b (List.mem_cons_of_mem x hb)
    have htailpos : 0 < (y :: t).sum := List.sum_pos _ hypos (by simp)
    have hsum : (x :: y :: t).sum = x + (y :: t).sum := List.sum_cons
    have hxT : x < (x :: y :: t).sum := by rw [hsum]; linarith
    have hx0 : 0 < x := hpos x (by simp)
    have hxs0 : 0 < x / (x :: y :: t).sum := div_pos hx0 hT
    have hxs1 : x / (x :: y :: t).sum < 1 := (div_lt_one hT).mpr hxT
    have hxstrict : (x / (x :: y :: t).sum) * (x / (x :: y :: t).sum) <
        x / (x :: y :: t).sum := by nlinarith
    have htail : ((y :: t).map
        (fun b => (b / (x :: y :: t).sum) * (b / (x :: y :: t).sum))).sum ≤
        ((y :: t).map (fun b => b / (x :: y :: t).sum)).sum :=
      List.sum_le_sum (fun b hb => hpoint b (List.mem_cons_of_mem x hb))
    have hsplit : ((x :: y :: t).map
        (fun b => (b / (x :: y :: t).sum) * (b / (x :: y :: t).sum))).sum =
        (x / (x :: y :: t).sum) * (x / (x :: y :: t).sum) +
        ((y :: t).map
          (fun b => (b / (x :: y :: t).sum) * (b / (x :: y :: t).sum))).sum := by
      rw [List.map_cons, List.sum_cons]
    have hsplit2 : ((x :: y :: t).map (fun b => b / (x :: y :: t).sum)).sum =
        x / (x :: y :: t).sum +
        ((y :: t).map (fun b => b / (x :: y :: t).sum)).sum := by
      rw [List.map_cons, List.sum_cons]
    have hlt : ((x :: y :: t).map
        (fun b => (b / (x :: y :: t).sum) * (b / (x :: y :: t).sum))).sum < 1 := by
      rw [hsplit]
      rw [hsplit2] at hshare
      linarith
    exact absurd heq (ne_of_lt hlt)
  · intro hlen1
    obtain ⟨a, rfl⟩ := List.length_eq_one.mp hlen1
    have ha0 : (0:ℚ) < a := hpos a (by simp)
    simp [div_self (ne_of_gt ha0)]

/-- The Herfindahl reduce equals the sum over the list of balances. -/
theorem concentrationRiskOf_eq_sum (tokenHoldings : List TokenHolding) :
    concentrationRiskOf tokenHoldings =
      ((tokenHoldings.map (fun t => t.balance)).map
        (fun b => (b / (tokenHoldings.map (fun t => t.balance)).sum) *
                  (b / (tokenHoldings.map (fun t => t.balance)).sum))).sum := by
  show tokenHoldings.foldl
      (fun risk t => risk +
        (t.balance / (tokenHoldings.map (fun t => t.balance)).sum) *
        (t.balance / (tokenHoldings.map (fun t => t.balance)).sum)) 0 = _
  rw [foldl_add_eq_sum (fun t : TokenHolding =>
    (t.balance / (tokenHoldings.map (fun u => u.balance)).sum) *
    (t.balance / (tokenHoldings.map (fun u => u.balance)).sum))]
  rw [List.map_map]
  simp only [zero_add]
  rfl

/-- The token analysis exposes exactly the Herfindahl reduce. -/
theorem analyzeTokenHoldings_concentrationRisk (tokenHoldings : List TokenHolding) :
    (analyzeTokenHoldings tokenHoldings).concentrationRisk =
      concentrationRiskOf tokenHoldings := rfl

/-- C5. Herfindahl bounds: for every non-empty holdings list with positive
balances, the concentration risk computed by `analyzeTokenHoldings` — the
sum over holdings of the squared balance share — lies in `[1/n, 1]` where
`n` is the number of holdings, and equals exactly `1` precisely when
`n = 1`. -/
theorem C5_herfindahl_bounds (tokenHoldings : List TokenHolding)
    (hne : tokenHoldings ≠ []) (hpos : ∀ t ∈ tokenHoldings, 0 < t.balance) :
    1 / tokenHoldings.length ≤
      (analyzeTokenHoldings tokenHoldings).concentrationRisk ∧
    (analyzeTokenHoldings tokenHoldings).concentrationRisk ≤ 1 ∧
    ((analyzeTokenHoldings tokenHoldings).concentrationRisk = 1 ↔
      tokenHoldings.length = 1) := by
  have hcore := herfindahl_core (tokenHoldings.map (fun t => t.balance))
    (by simpa using hne)
    (by intro b hb
        obtain ⟨t, ht, rfl⟩ := List.mem_map.mp hb
        exact hpos t ht)
  rw [analyzeTokenHoldings_concentrationRisk, concentrationRiskOf_eq_sum]
  simpa [List.length_map] using hcore

/-- Concrete holding used in witnesses: 3 USDC on mainnet. -/
def holdingUSDC3 : TokenHolding :=
  { symbol := "USDC", address := "0xA0b86a33E6Db485E0f65b2f8b4b92c0e7b9c2c1e",
    balance := 3, decimals := 6, chainName := "mainnet", isStakeable := true,
    stakingOptions := [], isTestnet := false }

/-- Concrete holding used in witnesses: 1 DAI on mainnet. -/
def holdingDAI1 : TokenHolding :=
  { symbol := "DAI", address := "0x6B175474E89094C44Da98b954EedeAC495271d0F",
    balance := 1, decimals := 18, chainName := "mainnet", isStakeable := true,
    stakingOptions := [], isTestnet := false }

/-- Witness for C5 on the two-holding portfolio (3, 1): the Herfindahl index
is between 1/2 and 1 and differs from 1 since there are two holdings. -/
theorem C5_herfindahl_bounds_witness :
    1 / ([holdingUSDC3, holdingDAI1] : List TokenHolding).length ≤
      (analyzeTokenHoldings [holdingUSDC3, holdingDAI1]).concentrationRisk ∧
    (analyzeTokenHoldings [holdingUSDC3, holdingDAI1]).concentrationRisk ≤ 1 ∧
    ((analyzeTokenHoldings [holdingUSDC3, holdingDAI1]).concentrationRisk = 1 ↔
      ([holdingUSDC3, holdingDAI1] : List TokenHolding).length = 1) :=
  C5_herfindahl_bounds [holdingUSDC3, holdingDAI1] (by decide)
    (by intro t ht
        simp only [List.mem_cons, List.not_mem_nil, or_false] at ht
        rcases ht with rfl | rfl
        · norm_num [holdingUSDC3]
        · norm_num [holdingDAI1])

/-- A score of at least 25 is never mapped to the CONSERVATIVE tier. -/
theorem mapRiskScoreToTolerance_ne_conservative (score : ℚ) (h : 25 ≤ score) :
    mapRiskScoreToTolerance score ≠ .CONSERVATIVE := by
  unfold mapRiskScoreToTolerance
  rw [if_neg (not_lt.mpr h)]
  split_ifs <;> decide

/-- The comprehensive risk score is bounded below by 42 whenever the native
balance is non-negative (as it always is in the pipeline, being a sum of
formatted chain balances). -/
theorem assessComprehensiveRisk_score_ge (nativeBalance : ℚ)
    (tokenHoldings : List TokenHolding) (hnn : 0 ≤ nativeBalance) :
    42 ≤ (assessComprehensiveRisk nativeBalance tokenHoldings
      (analyzeTokenHoldings tokenHoldings)).riskScore := by
  show (42:ℚ) ≤ max 0 (min 100 _)
  refine le_max_of_le_right (le_min (by norm_num) ?_)
  set n := tokenHoldings.length with hn
  set s := (analyzeTokenHoldings tokenHoldings).stablecoins.length with hsdef
  have hs_le : s ≤ n := by
    rw [hsdef, hn]
    exact List.length_filter_le _ _
  by_cases hzero : n = 0
  · have hs0 : s = 0 := by omega
    rw [hzero, hs0]
    norm_num
    split_ifs <;> norm_num at *
  · have h1n : (1:ℚ) ≤ (n:ℚ) := by
      exact_mod_cast Nat.one_le_iff_ne_zero.mpr hzero
    have hB : (2:ℚ) ≤ min ((n:ℚ) * 2) 20 := le_min (by linarith) (by norm_num)
    split_ifs <;> linarith

/-- C9. Risk-score lower bound: with a non-negative native balance the risk
score computed by `assessComprehensiveRisk` is at least 25 (indeed at least
42), the small-portfolio penalty and the high-stablecoin-share penalty can
never both apply (a stablecoin share above one half forces at least one
holding, which pushes the combined count to at least 1), and consequently
the CONSERVATIVE tolerance tier (scores below 25) is never produced. -/
theorem C9_risk_floor (nativeBalance : ℚ) (tokenHoldings : List TokenHolding)
    (hnn : 0 ≤ nativeBalance) :
    25 ≤ (assessComprehensiveRisk nativeBalance tokenHoldings
      (analyzeTokenHoldings tokenHoldings)).riskScore ∧
    (assessComprehensiveRisk nativeBalance tokenHoldings
      (analyzeTokenHoldings tokenHoldings)).riskTolerance ≠ .CONSERVATIVE ∧
    ¬ (nativeBalance + (tokenHoldings.length : ℚ) < 1 ∧
       1/2 < ((analyzeTokenHoldings tokenHoldings).stablecoins.length : ℚ) /
         ((max tokenHoldings.length 1 : ℕ) : ℚ)) := by
  have hge := assessComprehensiveRisk_score_ge nativeBalance tokenHoldings hnn
  have h25 : 25 ≤ (assessComprehensiveRisk nativeBalance tokenHoldings
      (analyzeTokenHoldings tokenHoldings)).riskScore := by linarith
  refine ⟨h25, mapRiskScoreToTolerance_ne_conservative _ h25, ?_⟩
  rintro ⟨hsmall, hshare⟩
  by_cases hzero : tokenHoldings.length = 0
  · have hs0 : (analyzeTokenHoldings tokenHoldings).stablecoins.length = 0 := by
      have := List.length_filter_le
        (fun t => decide (t.symbol ∈ stablecoinSymbols)) tokenHoldings
      show (tokenHoldings.filter
        (fun t => decide (t.symbol ∈ stablecoinSymbols))).length = 0
      omega
    rw [hs0, hzero] at hshare
    norm_num at hshare
  · have h1n : (1:ℚ) ≤ (tokenHoldings.length : ℚ) := by
      exact_mod_cast Nat.one_le_iff_ne_zero.mpr hzero
    linarith

/-- Witness for C9 on the empty snapshot with zero native balance: the risk
score is at least 25 and the tier is not CONSERVATIVE. -/
theorem C9_risk_floor_witness :
    25 ≤ (assessComprehensiveRisk 0 [] (analyzeTokenHoldings [])).riskScore ∧
    (assessComprehensiveRisk 0 [] (analyzeTokenHoldings [])).riskTolerance ≠
      .CONSERVATIVE ∧
    ¬ ((0:ℚ) + (([] : List TokenHolding).length : ℚ) < 1 ∧
       1/2 < ((analyzeTokenHoldings []).stablecoins.length : ℚ) /
         ((max ([] : List TokenHolding).length 1 : ℕ) : ℚ)) :=
  C9_risk_floor 0 [] (by norm_num)

/-- The tier-based base allocation lies in `[0, 90]` when the liquidity ratio
lies in `[0, 1]`. -/
theorem tierBase_allocation_bounds (tol : RiskTolerance) (lr : ℚ)
    (_h0 : 0 ≤ lr) (h1 : lr ≤ 1) :
    0 ≤ (tierBase tol lr).1 ∧ (tierBase tol lr).1 ≤ 90 := by
  cases tol <;> simp only [tierBase] <;> constructor <;>
    first
      | exact le_min (by norm_num) (by nlinarith)
      | exact le_trans (min_le_left _ _) (by norm_num)
      | norm_num

/-- The current strategy generator's allocation lies in `[0, 90]` when the
liquidity ratio lies in `[0, 1]`. -/
theorem generateStakingStrategy_allocation_bounds (p : WalletRiskProfile)
    (l : LiquidityProfile) (b : ℚ) (t : Bool)
    (h0 : 0 ≤ l.liquidityRatio) (h1 : l.liquidityRatio ≤ 1) :
    0 ≤ (generateStakingStrategy p l b t).recommendedAllocation ∧
    (generateStakingStrategy p l b t).recommendedAllocation ≤ 90 := by
  simp only [generateStakingStrategy]
  split_ifs
  · exact ⟨by norm_num, by norm_num⟩
  · exact ⟨by norm_num, by norm_num⟩
  · exact tierBase_allocation_bounds _ _ h0 h1

/-- The legacy strategy generator's allocation lies in `[0, 90]` when the
liquidity ratio lies in `[0, 1]`. -/
theorem legacy_allocation_bounds (p : WalletRiskProfile)
    (l : LiquidityProfile) (b : ℚ)
    (h0 : 0 ≤ l.liquidityRatio) (h1 : l.liquidityRatio ≤ 1) :
    0 ≤ (Legacy.generateStakingStrategy p l b).recommendedAllocation ∧
    (Legacy.generateStakingStrategy p l b).recommendedAllocation ≤ 90 := by
  have hb := tierBase_allocation_bounds p.riskTolerance l.liquidityRatio h0 h1
  simp only [Legacy.generateStakingStrategy]
  split_ifs
  · exact ⟨le_trans (by norm_num) (le_max_right _ 10),
      max_le (by linarith [hb.2]) (by norm_num)⟩
  · exact ⟨le_min (by linarith [hb.1]) (by norm_num),
      le_trans (min_le_right _ _) (by norm_num)⟩
  · exact hb

/-- Concrete MODERATE risk profile used in counterexamples and witnesses. -/
def riskProfileModerate : WalletRiskProfile :=
  { riskScore := 45, riskTolerance := .MODERATE, maxSinglePosition := 0,
    diversificationLevel := .LOW, lockPeriodTolerance := 30,
    concentrationRisk := 0, liquidityRisk := 0, stakingRiskTolerance := .MEDIUM }

/-- Concrete liquidity profile with ratio 0 used in counterexamples and
witnesses. -/
def liquidityZero : LiquidityProfile :=
  { liquidityRatio := 0, withdrawalFrequency := 1, emergencyBuffer := 0,
    preferredLockPeriods := [30, 90, 365], liquidAssets := [], stakedAssets := [],
    stakingCapacity := 0 }

/-- C7 counterexample: in the current (testnet-aware) strategy generator a
mainnet portfolio of 0.5 units gets the same 60% MODERATE allocation as a
10-unit portfolio — no portfolio-size decrease is applied below 1 unit
(the legacy generator would have produced 40 for the same inputs). -/
theorem C7_counterexample :
    (generateStakingStrategy riskProfileModerate liquidityZero (1/2)
      false).recommendedAllocation = 60 ∧
    (generateStakingStrategy riskProfileModerate liquidityZero 10
      false).recommendedAllocation = 60 ∧
    (Legacy.generateStakingStrategy riskProfileModerate liquidityZero
      (1/2)).recommendedAllocation = 40 := by
  refine ⟨?_, ?_, ?_⟩ <;>
    norm_num [generateStakingStrategy, Legacy.generateStakingStrategy,
      tierBase, riskProfileModerate, liquidityZero, min_def, max_def]

/-- C7 (amended). The current strategy generator applies no portfolio-size
adjustment on mainnet: its allocation is independent of the total balance
(portfolio size only gates the fixed 40% testnet allocation). In both the
current and the legacy generator the resulting allocation always lies in
`[0, 100]` (indeed in `[0, 90]`), given a liquidity ratio in `[0, 1]`. -/
theorem C7_allocation (p : WalletRiskProfile) (l : LiquidityProfile)
    (b b' : ℚ) (t : Bool)
    (h0 : 0 ≤ l.liquidityRatio) (h1 : l.liquidityRatio ≤ 1) :
    (generateStakingStrategy p l b false).recommendedAllocation =
      (generateStakingStrategy p l b' false).recommendedAllocation ∧
    (0 ≤ (generateStakingStrategy p l b t).recommendedAllocation ∧
      (generateStakingStrategy p l b t).recommendedAllocation ≤ 100) ∧
    (0 ≤ (Legacy.generateStakingStrategy p l b).recommendedAllocation ∧
      (Legacy.generateStakingStrategy p l b).recommendedAllocation ≤ 100) := by
  have hc := generateStakingStrategy_allocation_bounds p l b t h0 h1
  have hl := legacy_allocation_bounds p l b h0 h1
  refine ⟨by simp [generateStakingStrategy], ⟨hc.1, by linarith [hc.2]⟩,
    ⟨hl.1, by linarith [hl.2]⟩⟩

/-- Witness for C7 at the concrete MODERATE profile, zero liquidity ratio,
balances 0.5 and 10, mainnet mode. -/
theorem C7_allocation_witness :
    (generateStakingStrategy riskProfileModerate liquidityZero (1/2)
        false).recommendedAllocation =
      (generateStakingStrategy riskProfileModerate liquidityZero 10
        false).recommendedAllocation ∧
    (0 ≤ (generateStakingStrategy riskProfileModerate liquidityZero (1/2)
        false).recommendedAllocation ∧
      (generateStakingStrategy riskProfileModerate liquidityZero (1/2)
        false).recommendedAllocation ≤ 100) ∧
    (0 ≤ (Legacy.generateStakingStrategy riskProfileModerate liquidityZero
        (1/2)).recommendedAllocation ∧
      (Legacy.generateStakingStrategy riskProfileModerate liquidityZero
        (1/2)).recommendedAllocation ≤ 100) :=
  C7_allocation riskProfileModerate liquidityZero (1/2) 10 false
    (by norm_num [liquidityZero]) (by norm_num [liquidityZero])

/-- Empty analysis cache with the 10-minute TTL, for witnesses. -/
def emptyAnalysisCache : Cache WalletAnalysis := ⟨600000, fun _ => none⟩

/-- Witness for C10 on an empty cache: a failing analysis at a fresh key
yields the wrapped error and stores nothing under the key. -/
theorem C10_failure_atomicity_witness :
    (analyzeWalletStep emptyAnalysisCache "0xabc" false 0 (.error "boom")).1 =
      .error ("Failed to analyze wallet: " ++ "boom") ∧
    (analyzeWalletStep emptyAnalysisCache "0xabc" false 0 (.error "boom")).2.store
      (analysisCacheKey "0xabc" false) = none :=
  ⟨(C10_failure_atomicity emptyAnalysisCache "0xabc" false 0 "boom" rfl).1,
   (C10_failure_atomicity emptyAnalysisCache "0xabc" false 0 "boom" rfl).2.1⟩


/-- Inversion: a holding produced by the token loop sits on the processed
chain, is positive and above the chain's dust threshold, and inherits the
testnet flag. -/
theorem tokenHoldingFor_some (raw : ChainRaw) (chainName : String)
    (isTestnet : Bool) (tc : TokenConfig) (t : TokenHolding)
    (h : tokenHoldingFor raw chainName isTestnet tc = some t) :
    t.chainName = chainName ∧
    (if isTestnet then (1:ℚ)/100000 else 1/1000) < t.balance ∧ 0 < t.balance ∧
    t.isTestnet = (tc.isTestnet || isTestnet) ∧ t.symbol = tc.symbol ∧
    t.stakingOptions = tc.stakingOptions := by
  cases hb : raw.token tc.address with
  | none =>
    simp only [tokenHoldingFor, hb] at h
    exact absurd h (by simp)
  | some b =>
    cases isTestnet with
    | true =>
      simp only [tokenHoldingFor, hb, eq_self_iff_true, if_true] at h
      by_cases hcond : 0 < b ∧ (1:ℚ)/100000 < b
      · rw [if_pos hcond, Option.some.injEq] at h
        subst h
        exact ⟨rfl, by simpa using hcond.2, hcond.1, rfl, rfl, rfl⟩
      · rw [if_neg hcond] at h
        exact absurd h (by simp)
    | false =>
      simp only [tokenHoldingFor, hb, Bool.false_eq_true, if_false] at h
      by_cases hcond : 0 < b ∧ (1:ℚ)/1000 < b
      · rw [if_pos hcond, Option.some.injEq] at h
        subst h
        exact ⟨rfl, by simpa using hcond.2, hcond.1, rfl, rfl, rfl⟩
      · rw [if_neg hcond] at h
        exact absurd h (by simp)

/-- Inversion: a successful per-chain snapshot carries the processed chain's
name and testnet flag, and all its holdings clear the dust threshold. -/
theorem getTokenBalancesForChain_ok (env : Env) (address chainName : String)
    (d : TokenBalanceData)
    (h : getTokenBalancesForChain env address chainName = .ok d) :
    d.chainName = chainName ∧ d.isTestnet = isTestnetChain chainName ∧
    d.address = address ∧
    ∀ t ∈ d.tokenHoldings, t.chainName = chainName ∧
      (if isTestnetChain chainName then (1:ℚ)/100000 else 1/1000) < t.balance ∧
      0 < t.balance ∧ (isTestnetChain chainName = true → t.isTestnet = true) := by
  cases henv : env chainName with
  | error e =>
    simp only [getTokenBalancesForChain, henv] at h
    exact absurd h (by simp)
  | ok raw =>
    simp only [getTokenBalancesForChain, henv, Except.ok.injEq] at h
    subst h
    refine ⟨rfl, rfl, rfl, ?_⟩
    intro t ht
    simp only [List.mem_filterMap] at ht
    obtain ⟨tc, htc, hf⟩ := ht
    have hinv := tokenHoldingFor_some raw chainName (isTestnetChain chainName) tc t hf
    refine ⟨hinv.1, hinv.2.1, hinv.2.2.1, ?_⟩
    intro htn
    rw [hinv.2.2.2.1, htn, Bool.or_true]

/-- Inversion: every snapshot in the aggregation result comes from a
successful fetch of a targeted chain passing the contribution rule. -/
theorem getTokenBalances_mem (env : Env) (address : String)
    (supported : Option (List String)) (testnetOnly : Bool)
    (d : TokenBalanceData)
    (h : d ∈ getTokenBalances env address supported testnetOnly) :
    ∃ c ∈ chainsToCheck supported testnetOnly,
      getTokenBalancesForChain env address c = .ok d ∧
      (d.tokenHoldings.length > 0 ∨ 0 < d.nativeBalance ∨ testnetOnly = true) := by
  simp only [getTokenBalances, List.mem_filterMap] at h
  obtain ⟨c, hc, hf⟩ := h
  refine ⟨c, hc, ?_⟩
  cases hres : getTokenBalancesForChain env address c with
  | error e =>
    simp only [hres] at hf
    exact absurd hf (by simp)
  | ok cd =>
    simp only [hres] at hf
    by_cases hcond : cd.tokenHoldings.length > 0 ∨ 0 < cd.nativeBalance ∨
        testnetOnly = true
    · rw [if_pos hcond, Option.some.injEq] at hf
      subst hf
      exact ⟨rfl, hcond⟩
    · rw [if_neg hcond] at hf
      exact absurd hf (by simp)

/-- Environment in which every chain answers with zero native balance and
zero balance for every token. -/
def envZero : Env := fun _ => .ok ⟨some 0, fun _ => some 0⟩

/-- Environment in which sepolia holds 1 native unit and every other chain
answers zero everywhere. -/
def envSepolia1 : Env := fun c =>
  if c = "sepolia" then .ok ⟨some 1, fun _ => some 0⟩
  else .ok ⟨some 0, fun _ => some 0⟩

/-- Environment in which every chain's queries fail. -/
def envAllFail : Env := fun _ => .error ()

/-- C6 counterexample: in testnet mode a testnet chain with zero native
balance and no token holdings still contributes a snapshot (the `||
testnetOnly` disjunct of the inclusion test), contradicting the claimed
only-if contribution rule; the head of the result is the empty sepolia
snapshot. -/
theorem C6_counterexample :
    (getTokenBalances envZero "0x" none true).head? =
      some { address := "0x", chainName := "sepolia", nativeBalance := 0,
             tokenHoldings := [], isTestnet := true } ∧
    ¬ (0 < (0:ℚ) ∨ ([] : List TokenHolding) ≠ []) := by
  constructor
  · decide
  · simp

/-- C6 (amended). Chain contribution and dust rule: in mainnet mode
(`testnetOnly = false`) a chain contributes a snapshot only if its native
balance is positive or it holds at least one above-dust token; in testnet
mode every targeted testnet chain contributes regardless. In both modes
every reported token balance is strictly above the chain's dust threshold
(`0.00001` on testnet chains, `0.001` on mainnet chains). -/
theorem C6_contribution_dust (env : Env) (address : String)
    (supported : Option (List String)) (testnetOnly : Bool) :
    (∀ d ∈ getTokenBalances env address supported false,
      0 < d.nativeBalance ∨ d.tokenHoldings ≠ []) ∧
    (∀ d ∈ getTokenBalances env address supported testnetOnly,
      ∀ t ∈ d.tokenHoldings,
        (if isTestnetChain d.chainName then (1:ℚ)/100000 else 1/1000) <
          t.balance) := by
  constructor
  · intro d hd
    obtain ⟨c, hc, hok, hcond⟩ := getTokenBalances_mem env address supported false d hd
    rcases hcond with hlen | hnat | habs
    · right
      intro hnil
      rw [hnil] at hlen
      simp at hlen
    · left
      exact hnat
    · exact absurd habs (by simp)
  · intro d hd t ht
    obtain ⟨c, hc, hok, hcond⟩ :=
      getTokenBalances_mem env address supported testnetOnly d hd
    have hinv := getTokenBalancesForChain_ok env address c d hok
    rw [hinv.1]
    exact (hinv.2.2.2 t ht).2.1

/-- Witness for C6: in mainnet mode with only a sepolia balance of 1, the
single returned snapshot satisfies the contribution rule. -/
theorem C6_contribution_dust_witness :
    0 < ({ address := "0x", chainName := "sepolia", nativeBalance := 1,
           tokenHoldings := [], isTestnet := true } : TokenBalanceData).nativeBalance ∨
    ({ address := "0x", chainName := "sepolia", nativeBalance := 1,
       tokenHoldings := [], isTestnet := true } : TokenBalanceData).tokenHoldings ≠ [] :=
  (C6_contribution_dust envSepolia1 "0x" none false).1 _ (by decide)

/-- C2 counterexample: when every targeted chain fails, the aggregation
returns successfully with an empty snapshot list and the analysis proceeds to
a degraded, fully-formed `WalletAnalysis` with no recommendations — there is
no `NoChainsReachable` failure anywhere in the code. -/
theorem C2_counterexample :
    getTokenBalances envAllFail "0x" none false = [] ∧
    (performAnalysis envAllFail "0x" none false).stakingRecommendations = [] ∧
    (performAnalysis envAllFail "0x" none false).nativeBalances = [] ∧
    (performAnalysis envAllFail "0x" none false).tokenHoldings = [] := by
  refine ⟨?_, ?_, ?_, ?_⟩ <;> decide

/-- C2 (amended). Partial-failure policy: a chain whose query fails after
retries contributes no snapshot (no entry of the result carries its name),
a reachable targeted chain with a positive native balance does contribute,
and when every chain fails the aggregation still returns successfully with
the empty list — it does not raise a `NoChainsReachable` error (no such
error exists in the code). -/
theorem C2_partial_failure (env : Env) (address : String)
    (supported : Option (List String)) (testnetOnly : Bool) :
    (∀ c, env c = .error () →
      ∀ d ∈ getTokenBalances env address supported testnetOnly, d.chainName ≠ c) ∧
    ((∀ c, env c = .error ()) →
      getTokenBalances env address supported testnetOnly = []) ∧
    (∀ c raw, c ∈ chainsToCheck supported testnetOnly → env c = .ok raw →
      0 < raw.native.getD 0 →
      ∃ d ∈ getTokenBalances env address supported testnetOnly,
        d.chainName = c) := by
  refine ⟨?_, ?_, ?_⟩
  · intro c herr d hd hname
    obtain ⟨c', hc', hok, _⟩ :=
      getTokenBalances_mem env address supported testnetOnly d hd
    have hinv := getTokenBalancesForChain_ok env address c' d hok
    rw [hinv.1] at hname
    subst hname
    simp only [getTokenBalancesForChain, herr] at hok
    exact absurd hok (by simp)
  · intro hall
    apply List.filterMap_eq_nil_iff.mpr
    intro c hc
    simp only [getTokenBalancesForChain, hall c]
  · intro c raw hc henv hpos
    have hokD : getTokenBalancesForChain env address c = .ok
        { address := address, chainName := c,
          nativeBalance := raw.native.getD 0,
          tokenHoldings := (if isTestnetChain c then TESTNET_TOKEN_DATABASE c
            else TOKEN_DATABASE c).filterMap
            (tokenHoldingFor raw c (isTestnetChain c)),
          isTestnet := isTestnetChain c } := by
      simp only [getTokenBalancesForChain, henv]
    have hmem : ({ address := address, chainName := c,
                   nativeBalance := raw.native.getD 0,
                   tokenHoldings := (if isTestnetChain c then
                       TESTNET_TOKEN_DATABASE c
                     else TOKEN_DATABASE c).filterMap
                     (tokenHoldingFor raw c (isTestnetChain c)),
                   isTestnet := isTestnetChain c } : TokenBalanceData) ∈
        getTokenBalances env address supported testnetOnly := by
      apply List.mem_filterMap.mpr
      refine ⟨c, hc, ?_⟩
      simp only [hokD]
      rw [if_pos (Or.inr (Or.inl hpos))]
    exact ⟨_, hmem, rfl⟩

/-- Environment in which mainnet holds 2 native units and every other chain
fails. -/
def envPartial : Env := fun c =>
  if c = "mainnet" then .ok ⟨some 2, fun _ => some 0⟩
  else .error ()

/-- Witness for C2: with mainnet reachable (balance 2) and base failing, the
result omits base and contains a mainnet snapshot. -/
theorem C2_partial_failure_witness :
    (∀ d ∈ getTokenBalances envPartial "0x" none false, d.chainName ≠ "base") ∧
    ∃ d ∈ getTokenBalances envPartial "0x" none false, d.chainName = "mainnet" :=
  ⟨(C2_partial_failure envPartial "0x" none false).1 "base" rfl,
   (C2_partial_failure envPartial "0x" none false).2.2 "mainnet"
     ⟨some 2, fun _ => some 0⟩ (by decide) rfl (by norm_num)⟩

/-- C3 counterexample: at an address with zero native balance on every chain
and no tokens, the mainnet-mode analysis has risk score 45, not the claimed
35 — the "very small portfolio" penalty (−15) is joined by the
low-stablecoin-share adjustment (+10). -/
theorem C3_counterexample :
    (performAnalysis envZero "0x" none false).riskProfile.riskScore = 45 ∧
    ((45:ℚ) ≠ 35) := by
  have hempty : getTokenBalances envZero "0x" none false = [] := by decide
  constructor
  · simp only [performAnalysis, hempty]
    show (assessComprehensiveRisk 0 [] (analyzeTokenHoldings [])).riskScore = 45
    norm_num [assessComprehensiveRisk, analyzeTokenHoldings, concentrationRiskOf,
      min_def, max_def]
  · norm_num

/-- C3 (amended). Zero-holdings baseline: for every environment answering
zero everywhere, the mainnet-mode analysis has no staking recommendations,
no per-chain entries, diversification score exactly 0, and risk score
exactly 45 = 50 − 15 (very small portfolio) + 10 (stablecoin share below
0.1) — not 35. -/
theorem C3_zero_holdings (env : Env) (address : String)
    (supported : Option (List String))
    (hzero : ∀ c, env c = .ok ⟨some 0, fun _ => some 0⟩) :
    (performAnalysis env address supported false).stakingRecommendations = [] ∧
    (performAnalysis env address supported false).nativeBalances = [] ∧
    (performAnalysis env address supported false).diversificationScore = 0 ∧
    (performAnalysis env address supported false).riskProfile.riskScore = 45 := by
  have hhold : ∀ tdb : List TokenConfig, tdb.filterMap
      (tokenHoldingFor ⟨some 0, fun _ => some 0⟩ "" false) = [] := by
    intro tdb
    exact List.filterMap_eq_nil_iff.mpr (fun tc _ => by simp [tokenHoldingFor])
  have hchain : ∀ c, getTokenBalancesForChain env address c = .ok
      { address := address, chainName := c, nativeBalance := 0,
        tokenHoldings := [], isTestnet := isTestnetChain c } := by
    intro c
    simp only [getTokenBalancesForChain, hzero c]
    have h2 : ∀ tdb : List TokenConfig, tdb.filterMap
        (tokenHoldingFor ⟨some 0, fun _ => some 0⟩ c (isTestnetChain c)) = [] := by
      intro tdb
      exact List.filterMap_eq_nil_iff.mpr (fun tc _ => by simp [tokenHoldingFor])
    rw [h2]
    rfl
  have hempty : getTokenBalances env address supported false = [] := by
    apply List.filterMap_eq_nil_iff.mpr
    intro c hc
    simp only [hchain c]
    rw [if_neg]
    push_neg
    exact ⟨by simp, by norm_num, by simp⟩
  simp only [performAnalysis, hempty]
  refine ⟨by decide, by decide, ?_, ?_⟩
  · show calculateDiversificationScore [] [] = 0
    norm_num [calculateDiversificationScore, min_def, max_def]
  · show (assessComprehensiveRisk 0 [] (analyzeTokenHoldings [])).riskScore = 45
    norm_num [assessComprehensiveRisk, analyzeTokenHoldings, concentrationRiskOf,
      min_def, max_def]

/-- Witness for C3 at the concrete all-zero environment. -/
theorem C3_zero_holdings_witness :
    (performAnalysis envZero "0x" none false).stakingRecommendations = [] ∧
    (performAnalysis envZero "0x" none false).nativeBalances = [] ∧
    (performAnalysis envZero "0x" none false).diversificationScore = 0 ∧
    (performAnalysis envZero "0x" none false).riskProfile.riskScore = 45 :=
  C3_zero_holdings envZero "0x" none (fun _ => rfl)

/-- Membership through the stable priority insertion. -/
theorem mem_insertByPriority (r x : StakingRecommendation)
    (l : List StakingRecommendation) :
    r ∈ insertByPriority x l ↔ r = x ∨ r ∈ l := by
  induction l with
  | nil => simp [insertByPriority]
  | cons y l ih =>
    simp only [insertByPriority]
    split_ifs
    · simp [List.mem_cons]
    · simp only [List.mem_cons, ih]
      tauto

/-- The priority sort is membership-preserving (it permutes the input). -/
theorem mem_sortByPriority (r : StakingRecommendation)
    (l : List StakingRecommendation) :
    r ∈ sortByPriority l ↔ r ∈ l := by
  induction l with
  | nil => simp [sortByPriority]
  | cons x l ih =>
    simp only [sortByPriority, mem_insertByPriority, ih, List.mem_cons]

/-- Membership in the generated recommendation list: every recommendation
comes either from a native-balance entry or from a filtered stakeable
holding. -/
theorem mem_generateRealStakingRecommendations
    (nativeBalances : List (String × ℚ)) (tokenHoldings : List TokenHolding)
    (strategy : StakingStrategy) (riskProfile : WalletRiskProfile)
    (testnetOnly : Bool) (r : StakingRecommendation) :
    r ∈ generateRealStakingRecommendations nativeBalances tokenHoldings
        strategy riskProfile testnetOnly ↔
    ((∃ p ∈ nativeBalances,
        nativeStakingRecommendation strategy testnetOnly p.1 p.2 = some r) ∨
     (∃ t ∈ tokenHoldings, stakeableTokenFilter testnetOnly t = true ∧
        tokenStakingRecommendation strategy t = some r)) := by
  unfold generateRealStakingRecommendations
  rw [mem_sortByPriority, List.mem_append]
  simp [List.mem_filterMap, List.mem_filter, and_assoc]

/-- A holding passing the stakeable filter has the mode's testnet flag. -/
theorem stakeableTokenFilter_isTestnet (testnetOnly : Bool) (t : TokenHolding)
    (h : stakeableTokenFilter testnetOnly t = true) :
    t.isTestnet = testnetOnly := by
  unfold stakeableTokenFilter at h
  cases testnetOnly with
  | true =>
    rw [if_pos rfl] at h
    simp only [Bool.and_eq_true] at h
    exact h.1.1
  | false =>
    rw [if_neg (by simp)] at h
    simp only [Bool.and_eq_true, Bool.not_eq_true'] at h
    exact h.2

/-- Inversion of the token-branch recommendation constructor. -/
theorem tokenStakingRecommendation_some (strategy : StakingStrategy)
    (t : TokenHolding) (r : StakingRecommendation)
    (h : tokenStakingRecommendation strategy t = some r) :
    r.isTestnet = t.isTestnet ∧ r.token = t.symbol ∧
    r.recommendedAmount = toFixed6 (t.balance * (7/10)) ∧
    (1:ℚ)/10 < t.balance ∧ (if t.isTestnet then (1:ℚ) else 50) ≤ t.balance := by
  simp only [tokenStakingRecommendation] at h
  cases ht : t.isTestnet with
  | true =>
    simp only [ht, reduceIte] at h ⊢
    split_ifs at h with h1 h2 h3 h4 <;>
      · rw [Option.some.injEq] at h
        subst h
        exact ⟨rfl, rfl, rfl, lt_of_le_of_lt (le_max_right _ _) h1.1, h1.2⟩
  | false =>
    simp only [ht, Bool.false_eq_true, reduceIte] at h ⊢
    split_ifs at h with h1 h2 h3 h4 <;>
      · rw [Option.some.injEq] at h
        subst h
        exact ⟨rfl, rfl, rfl, lt_of_le_of_lt (le_max_right _ _) h1.1, h1.2⟩

/-- Inversion of the native-balance (ETH) recommendation constructor: the
skip guards force the chain's testnet flag to equal the mode, the balance
clears the minimum threshold, and the recommended amount is the rounded
candidate stake which clears the minimum-recommendation floor. -/
theorem nativeStakingRecommendation_some (strategy : StakingStrategy)
    (testnetOnly : Bool) (chainName : String) (balance : ℚ)
    (r : StakingRecommendation)
    (h : nativeStakingRecommendation strategy testnetOnly chainName balance =
      some r) :
    r.isTestnet = testnetOnly ∧ r.token = "ETH" ∧
    isTestnetChain chainName = testnetOnly ∧
    (if testnetOnly then (1:ℚ)/100 else 1/10) < balance ∧
    r.recommendedAmount = toFixed6 (if testnetOnly then balance * (2/5)
      else balance * (strategy.recommendedAllocation / 100)) ∧
    (if testnetOnly then (1:ℚ)/200 else 1/20) ≤
      (if testnetOnly then balance * (2/5)
       else balance * (strategy.recommendedAllocation / 100)) := by
  simp only [nativeStakingRecommendation] at h
  cases hT : isTestnetChain chainName with
  | true =>
    cases testnetOnly with
    | true =>
      simp only [hT, not_true, true_and, and_true, false_and, and_false,
        if_true, if_false, reduceIte] at h
      split_ifs at h with h1 h2 h3 <;>
        · rw [Option.some.injEq] at h
          subst h
          exact ⟨rfl, rfl, rfl, by simpa using h1, by simp, by simpa using h2⟩
    | false =>
      simp only [hT, not_false_iff, true_and, and_true, false_and, and_false,
        if_true, if_false, reduceIte] at h
      exact absurd h (by simp)
  | false =>
    cases testnetOnly with
    | true =>
      simp only [hT, Bool.false_eq_true, not_false_iff, true_and, and_true,
        false_and, and_false, if_true, if_false, reduceIte] at h
      exact absurd h (by simp)
    | false =>
      simp only [hT, Bool.false_eq_true, not_false_iff, true_and, and_true,
        false_and, and_false, if_true, if_false, reduceIte] at h
      split_ifs at h with h1 h2 h3 <;>
        · rw [Option.some.injEq] at h
          subst h
          exact ⟨rfl, rfl, rfl, by simpa using h1, by simp, by simpa using h2⟩

/-- The analysis exposes the aggregated per-chain native balances. -/
theorem performAnalysis_nativeBalances (env : Env) (address : String)
    (supported : Option (List String)) (testnetOnly : Bool) :
    (performAnalysis env address supported testnetOnly).nativeBalances =
      (getTokenBalances env address supported testnetOnly).map
        (fun c => (c.chainName, c.nativeBalance)) := rfl

/-- The analysis exposes the flattened aggregated holdings. -/
theorem performAnalysis_tokenHoldings (env : Env) (address : String)
    (supported : Option (List String)) (testnetOnly : Bool) :
    (performAnalysis env address supported testnetOnly).tokenHoldings =
      ((getTokenBalances env address supported testnetOnly).map
        (fun c => c.tokenHoldings)).flatten := rfl

/-- The per-chain native balances the pipeline derives from the aggregation. -/
def pipelineNativeBalances (env : Env) (address : String)
    (supported : Option (List String)) (testnetOnly : Bool) :
    List (String × ℚ) :=
  (getTokenBalances env address supported testnetOnly).map
    (fun c => (c.chainName, c.nativeBalance))

/-- The flattened holdings the pipeline derives from the aggregation. -/
def pipelineHoldings (env : Env) (address : String)
    (supported : Option (List String)) (testnetOnly : Bool) :
    List TokenHolding :=
  ((getTokenBalances env address supported testnetOnly).map
    (fun c => c.tokenHoldings)).flatten

/-- The total native balance the pipeline derives from the aggregation. -/
def pipelineTotal (env : Env) (address : String)
    (supported : Option (List String)) (testnetOnly : Bool) : ℚ :=
  ((pipelineNativeBalances env address supported testnetOnly).map
    (fun p => p.2)).sum

/-- The risk profile the pipeline derives from the aggregation. -/
def pipelineRiskProfile (env : Env) (address : String)
    (supported : Option (List String)) (testnetOnly : Bool) :
    WalletRiskProfile :=
  assessComprehensiveRisk (pipelineTotal env address supported testnetOnly)
    (pipelineHoldings env address supported testnetOnly)
    (analyzeTokenHoldings (pipelineHoldings env address supported testnetOnly))

/-- The staking strategy the pipeline derives from the aggregation. -/
def pipelineStrategy (env : Env) (address : String)
    (supported : Option (List String)) (testnetOnly : Bool) :
    StakingStrategy :=
  generateStakingStrategy (pipelineRiskProfile env address supported testnetOnly)
    (assessLiquidityProfile (pipelineHoldings env address supported testnetOnly)
      (pipelineTotal env address supported testnetOnly))
    (pipelineTotal env address supported testnetOnly) testnetOnly

/-- The analysis recommendations are generated from the aggregated balances
and holdings, for the pipeline-derived strategy and risk profile. -/
theorem performAnalysis_recommendations (env : Env) (address : String)
    (supported : Option (List String)) (testnetOnly : Bool) :
    (performAnalysis env address supported testnetOnly).stakingRecommendations =
      generateRealStakingRecommendations
        (pipelineNativeBalances env address supported testnetOnly)
        (pipelineHoldings env address supported testnetOnly)
        (pipelineStrategy env address supported testnetOnly)
        (pipelineRiskProfile env address supported testnetOnly)
        testnetOnly := rfl

/-- C1 counterexample: in mainnet mode (`testnetOnly = false`) with a balance
of 1 on sepolia, the analysis includes the sepolia (testnet) native-balance
entry — the flag does not partition the balance pipeline in mainnet mode. -/
theorem C1_counterexample :
    ("sepolia", (1:ℚ)) ∈
      (performAnalysis envSepolia1 "0x" none false).nativeBalances ∧
    isTestnetChain "sepolia" = true := by
  constructor
  · decide
  · decide

/-- C1 (amended). Testnet partition: in testnet mode every per-chain
native-balance entry and every holding of the analysis belongs to a testnet
chain (and every holding carries the testnet flag); in mainnet mode testnet
chains may still appear among balances and holdings, but the recommendation
layer is fully partitioned — every emitted recommendation's testnet flag
equals the mode, in both modes. -/
theorem C1_testnet_partition (env : Env) (address : String)
    (supported : Option (List String)) :
    (∀ p ∈ (performAnalysis env address supported true).nativeBalances,
      isTestnetChain p.1 = true) ∧
    (∀ t ∈ (performAnalysis env address supported true).tokenHoldings,
      isTestnetChain t.chainName = true ∧ t.isTestnet = true) ∧
    (∀ (testnetOnly : Bool),
      ∀ r ∈ (performAnalysis env address supported
          testnetOnly).stakingRecommendations,
        r.isTestnet = testnetOnly) := by
  have htest : ∀ c ∈ getTestnetChains, isTestnetChain c = true := by decide
  refine ⟨?_, ?_, ?_⟩
  · intro p hp
    rw [performAnalysis_nativeBalances] at hp
    obtain ⟨d, hd, hpd⟩ := List.mem_map.mp hp
    obtain ⟨c, hc, hok, _⟩ := getTokenBalances_mem env address supported true d hd
    have hinv := getTokenBalancesForChain_ok env address c d hok
    subst hpd
    show isTestnetChain d.chainName = true
    rw [hinv.1]
    exact htest c hc
  · intro t ht
    rw [performAnalysis_tokenHoldings] at ht
    rw [List.mem_flatten] at ht
    obtain ⟨l, hl, htl⟩ := ht
    obtain ⟨d, hd, hld⟩ := List.mem_map.mp hl
    subst hld
    obtain ⟨c, hc, hok, _⟩ := getTokenBalances_mem env address supported true d hd
    have hinv := getTokenBalancesForChain_ok env address c d hok
    have hT : isTestnetChain c = true := htest c hc
    have hth := hinv.2.2.2 t htl
    refine ⟨?_, hth.2.2.2 hT⟩
    rw [hth.1]
    exact hT
  · intro testnetOnly r hr
    rw [performAnalysis_recommendations,
      mem_generateRealStakingRecommendations] at hr
    rcases hr with ⟨p, _, hnat⟩ | ⟨t, _, hfil, htok⟩
    · exact (nativeStakingRecommendation_some _ testnetOnly p.1 p.2 r hnat).1
    · rw [(tokenStakingRecommendation_some _ t r htok).1]
      exact stakeableTokenFilter_isTestnet testnetOnly t hfil

/-- Witness for C1 at the concrete environment with 1 sepolia unit: the
testnet-mode analysis reports the sepolia entry, which is a testnet chain. -/
theorem C1_testnet_partition_witness :
    isTestnetChain ("sepolia", (1:ℚ)).1 = true :=
  (C1_testnet_partition envSepolia1 "0x" none).1 ("sepolia", 1) (by decide)

/-- Rounding to six decimals overshoots by at most half an ulp. -/
theorem toFixed6_le (q : ℚ) : toFixed6 q ≤ q + 1/2000000 := by
  unfold toFixed6
  rw [round_eq]
  have h := Int.floor_le (q * 1000000 + 1/2)
  rw [div_le_iff₀ (by norm_num : (0:ℚ) < 1000000)]
  linarith

/-- Rounding to six decimals undershoots by at most half an ulp. -/
theorem toFixed6_ge (q : ℚ) : q - 1/2000000 ≤ toFixed6 q := by
  unfold toFixed6
  rw [round_eq]
  have h := Int.lt_floor_add_one (q * 1000000 + 1/2)
  rw [le_div_iff₀ (by norm_num : (0:ℚ) < 1000000)]
  linarith

/-- Rounding to six decimals preserves lower bounds that are themselves
multiples of `10⁻⁶`. -/
theorem toFixed6_ge_int (m : ℤ) (q : ℚ) (h : (m:ℚ)/1000000 ≤ q) :
    (m:ℚ)/1000000 ≤ toFixed6 q := by
  unfold toFixed6
  rw [round_eq]
  have hm : (m:ℚ) ≤ q * 1000000 + 1/2 := by
    rw [div_le_iff₀ (by norm_num : (0:ℚ) < 1000000)] at h
    linarith
  have hfloor : m ≤ ⌊q * 1000000 + 1/2⌋ := Int.le_floor.mpr hm
  have : (m:ℚ) ≤ (⌊q * 1000000 + 1/2⌋ : ℤ) := by exact_mod_cast hfloor
  rw [div_le_div_iff_of_pos_right (by norm_num : (0:ℚ) < 1000000)]
  exact this

/-- C4. Recommendation amount bounds: with the strategy produced by the
strategy generator (whose allocation lies in `[0, 90]`), every emitted
recommendation's amount is at least the minimum-recommendation floor
(`0.005` testnet, `0.05` mainnet) and never exceeds the held balance it was
derived from — the chain's native balance for ETH recommendations, the
token's held balance otherwise. -/
theorem C4_recommendation_bounds (nativeBalances : List (String × ℚ))
    (tokenHoldings : List TokenHolding) (riskProfile : WalletRiskProfile)
    (liquidityNeeds : LiquidityProfile) (totalBalance : ℚ) (testnetOnly : Bool)
    (h0 : 0 ≤ liquidityNeeds.liquidityRatio)
    (h1 : liquidityNeeds.liquidityRatio ≤ 1) :
    ∀ r ∈ generateRealStakingRecommendations nativeBalances tokenHoldings
        (generateStakingStrategy riskProfile liquidityNeeds totalBalance
          testnetOnly)
        riskProfile testnetOnly,
      ((if r.isTestnet then (1:ℚ)/200 else 1/20) ≤ r.recommendedAmount) ∧
      ((∃ p ∈ nativeBalances, r.token = "ETH" ∧ r.recommendedAmount ≤ p.2) ∨
       (∃ t ∈ tokenHoldings, r.token = t.symbol ∧
          r.recommendedAmount ≤ t.balance)) := by
  have halloc := generateStakingStrategy_allocation_bounds riskProfile
    liquidityNeeds totalBalance testnetOnly h0 h1
  intro r hr
  rw [mem_generateRealStakingRecommendations] at hr
  rcases hr with ⟨p, hp, hnat⟩ | ⟨t, ht, hfil, htok⟩
  · have inv := nativeStakingRecommendation_some _ testnetOnly p.1 p.2 r hnat
    obtain ⟨hrT, hrTok, _, hthr, hamt, hfloor⟩ := inv
    cases testnetOnly with
    | true =>
      simp only [if_true, reduceIte] at hthr hamt hfloor
      constructor
      · rw [hrT, hamt]
        simp only [reduceIte]
        have := toFixed6_ge_int 5000 (p.2 * (2/5)) (by push_cast; linarith)
        calc ((1:ℚ)/200) = (5000:ℤ)/1000000 := by norm_num
          _ ≤ toFixed6 (p.2 * (2/5)) := this
      · left
        refine ⟨p, hp, hrTok, ?_⟩
        rw [hamt]
        have hle := toFixed6_le (p.2 * (2/5))
        linarith
    | false =>
      simp only [Bool.false_eq_true, if_false, reduceIte] at hthr hamt hfloor
      constructor
      · rw [hrT, hamt]
        simp only [Bool.false_eq_true, reduceIte]
        have := toFixed6_ge_int 50000
          (p.2 * ((generateStakingStrategy riskProfile liquidityNeeds
            totalBalance false).recommendedAllocation / 100))
          (by push_cast; linarith)
        calc ((1:ℚ)/20) = (50000:ℤ)/1000000 := by norm_num
          _ ≤ _ := this
      · left
        refine ⟨p, hp, hrTok, ?_⟩
        rw [hamt]
        set q := p.2 * ((generateStakingStrategy riskProfile liquidityNeeds
          totalBalance false).recommendedAllocation / 100) with hq
        have hle := toFixed6_le q
        have hb0 : (0:ℚ) < p.2 := by linarith
        have hqle : q ≤ p.2 * (90/100) := by
          rw [hq]
          apply mul_le_mul_of_nonneg_left _ (le_of_lt hb0)
          have := halloc.2
          linarith
        linarith
  · have inv := tokenStakingRecommendation_some _ t r htok
    obtain ⟨hrT, hrTok, hamt, hthr, hmin⟩ := inv
    constructor
    · rw [hrT, hamt]
      cases hti : t.isTestnet with
      | true =>
        rw [hti] at hmin
        simp only [if_true, reduceIte] at hmin ⊢
        have hge := toFixed6_ge (t.balance * (7/10))
        linarith
      | false =>
        rw [hti] at hmin
        simp only [Bool.false_eq_true, if_false, reduceIte] at hmin ⊢
        have hge := toFixed6_ge (t.balance * (7/10))
        linarith
    · right
      refine ⟨t, ht, hrTok, ?_⟩
      rw [hamt]
      have hle := toFixed6_le (t.balance * (7/10))
      linarith

/-- The ETH recommendation produced for 2 ETH on mainnet under a MODERATE
strategy (allocation 60): amount `1.2`, MEDIUM priority, the three
non-HIGH-risk mainnet options. -/
def recETHExample : StakingRecommendation :=
  { recommendedAmount := 6/5, token := "ETH",
    options := ETH_STAKING_OPTIONS.filter (riskFilterOption .MODERATE),
    expectedReturn := 24/625, priority := .MEDIUM, isTestnet := false }

/-- Witness for C4 at a concrete portfolio of 2 ETH on mainnet with a
MODERATE profile: the emitted recommendation of 1.2 ETH is above the 0.05
floor and below the 2 ETH balance. -/
theorem C4_recommendation_bounds_witness :
    ((if recETHExample.isTestnet then (1:ℚ)/200 else 1/20) ≤
      recETHExample.recommendedAmount) ∧
    ((∃ p ∈ [("mainnet", (2:ℚ))], recETHExample.token = "ETH" ∧
        recETHExample.recommendedAmount ≤ p.2) ∨
     (∃ t ∈ ([] : List TokenHolding), recETHExample.token = t.symbol ∧
        recETHExample.recommendedAmount ≤ t.balance)) := by
  have hstr : generateStakingStrategy riskProfileModerate liquidityZero 2
      false =
      { recommendedAllocation := 60,
        preferredProtocols := ["Lido", "Rocket Pool", "Aave"],
        riskTolerance := .MODERATE, liquidityBuffer := 0,
        stakingHorizon := 365, diversificationGoal := 2 } := by
    norm_num [generateStakingStrategy, tierBase, riskProfileModerate,
      liquidityZero, min_def]
  have hlist : generateRealStakingRecommendations [("mainnet", 2)] []
      ({ recommendedAllocation := 60,
         preferredProtocols := ["Lido", "Rocket Pool", "Aave"],
         riskTolerance := .MODERATE, liquidityBuffer := 0,
         stakingHorizon := 365, diversificationGoal := 2 } : StakingStrategy)
      riskProfileModerate false = [recETHExample] := by
    with_unfolding_all rfl
  exact C4_recommendation_bounds [("mainnet", 2)] [] riskProfileModerate
    liquidityZero 2 false (by norm_num [liquidityZero])
    (by norm_num [liquidityZero]) recETHExample
    (by rw [hstr, hlist]; exact List.mem_singleton.mpr rfl)
